import Mathlib

/-!
Shallow Lean embedding of the tolerant-parsing / validation / line-resolution
pipeline of the shopify-schema-helper VS Code extension.

Text is modelled as `List Char` (`Str`).  The JavaScript strict JSON parser
(`JSON.parse`) is an external primitive of the runtime, not repository code;
it is modelled as an explicit parameter `parse : Str → Except Str ShopifySchema`
(`.error` models a thrown exception caught at the boundary).  JSON numbers are
modelled as `Int` (the validator only ever compares them), and JS falsy tests
on optional strings (`!x`) as `none` or the empty string.
-/

/-- Text, modelled as a list of characters. -/
abbrev Str := List Char

namespace SchemaHelper

/-- JS `String.prototype.trim`: drop leading and trailing whitespace. -/
def trimS (s : Str) : Str :=
  ((s.dropWhile Char.isWhitespace).reverse.dropWhile Char.isWhitespace).reverse

/-- JS `a.endsWith(b)`. -/
def endsWithS (s p : Str) : Bool := p.isSuffixOf s

/-- JS `a.startsWith(b)`. -/
def startsWithS (s p : Str) : Bool := p.isPrefixOf s

/-- JS `a.includes(b)` for a substring. -/
def includesSub (s p : Str) : Bool :=
  match s with
  | [] => p.isEmpty
  | _ :: t => p.isPrefixOf s || includesSub t p

/-- JS `content.split(c)` for a single character separator. -/
def splitOnC (c : Char) (s : Str) : List Str :=
  s.foldr (fun ch acc =>
    match acc with
    | [] => if ch = c then [[], []] else [[ch]]
    | h :: t => if ch = c then [] :: h :: t else (ch :: h) :: t) [[]]

/-- JS `lines.join(c)` for a single character separator. -/
def joinC (c : Char) (ls : List Str) : Str := (ls.intersperse [c]).flatten

/-- Decimal rendering of a natural number, as produced by JS template
interpolation of an array index. -/
def natStr (n : Nat) : Str :=
  if h : n < 10 then [Nat.digitChar n]
  else natStr (n / 10) ++ [Nat.digitChar (n % 10)]
  decreasing_by exact Nat.div_lt_self (by omega) (by omega)

/-- JS `parseInt` on a run of decimal digits. -/
def parseNat (s : Str) : Nat :=
  s.foldl (fun acc c => acc * 10 + (c.toNat - 48)) 0

/-- JS truthiness of an optional string: `undefined`, `null` and the empty
string are falsy. -/
def truthyS : Option Str → Bool
  | none => false
  | some s => !s.isEmpty

/-! ## Data model (`schemaParser.ts` interfaces)

The runtime objects come from `JSON.parse`, so fields that the TypeScript
interfaces declare as required (`type`, `name`, ...) may still be absent at
runtime; the code guards them with truthiness checks.  They are therefore
modelled as `Option`. -/

/-- `JsonIssue.type` in `schemaParser.ts`. -/
inductive IssueType where
  | trailingComma | missingComma | unescapedQuote | bracketMismatch | other
deriving DecidableEq, Repr

/-- `JsonIssue` in `schemaParser.ts`. -/
structure JsonIssue where
  type : IssueType
  line : Nat
  column : Nat
  message : Str
  suggestion : Str
  fixed : Bool
deriving DecidableEq, Repr

/-- `Option` (label/value pair) in `schemaParser.ts`. -/
structure SettingOption where
  value : Option Str := none
  label : Option Str := none
deriving DecidableEq, Repr

/-- `Setting.accept` may deserialize to something that is not an array;
`video_url` validation distinguishes the two (`Array.isArray`). -/
inductive AcceptVal where
  | arr (providers : List Str)
  | notArray
deriving DecidableEq, Repr

/-- `Setting` in `schemaParser.ts`.  `default` is only ever compared with
string literals by the validator, so it is modelled as an optional string. -/
structure Setting where
  type : Option Str := none
  id : Option Str := none
  label : Option Str := none
  content : Option Str := none
  default : Option Str := none
  placeholder : Option Str := none
  info : Option Str := none
  options : Option (List SettingOption) := none
  min : Option Int := none
  max : Option Int := none
  step : Option Int := none
  unit : Option Str := none
  visible_if : Option Str := none
  limit : Option Int := none
  metaobject_type : Option Str := none
  accept : Option AcceptVal := none
deriving DecidableEq, Repr

/-- `Block` in `schemaParser.ts`. -/
structure Block where
  type : Option Str := none
  name : Option Str := none
  limit : Option Int := none
  settings : Option (List Setting) := none
deriving DecidableEq, Repr

/-- `PresetBlock` in `schemaParser.ts` (setting overrides are irrelevant to
every rule, only their presence matters; they are omitted). -/
structure PresetBlock where
  type : Option Str := none
deriving DecidableEq, Repr

/-- `Preset` in `schemaParser.ts`.  The `settings` map is modelled by its key
list (`Object.keys` is all the validator uses). -/
structure Preset where
  name : Option Str := none
  settings : Option (List Str) := none
  blocks : Option (List PresetBlock) := none
deriving DecidableEq, Repr

/-- `_fileType` metadata. -/
inductive FileType where
  | section | block
deriving DecidableEq, Repr

/-- `ShopifySchema` in `schemaParser.ts` (`enabled_on`/`disabled_on`/`locales`
are never read by the pipeline and are modelled by their presence only). -/
structure ShopifySchema where
  name : Option Str := none
  tag : Option Str := none
  limit : Option Int := none
  settings : Option (List Setting) := none
  blocks : Option (List Block) := none
  presets : Option (List Preset) := none
  max_blocks : Option Int := none
  min_blocks : Option Int := none
  locales : Option (List Str) := none
  fileType : Option FileType := none
  filePath : Option Str := none
  jsonIssues : Option (List JsonIssue) := none
deriving DecidableEq, Repr

/-- `ParseResult` in `schemaParser.ts`. -/
structure ParseResult where
  schema : Option ShopifySchema
  issues : List JsonIssue
  originalError : Option Str
deriving DecidableEq, Repr

/-! ## Tolerant JSON parser (`schemaParser.ts`) -/

/-- `validateAndCleanSchema` (`schemaParser.ts` lines 317-329): default the
name when falsy, default the three collections when absent. -/
def validateAndCleanSchema (schema : ShopifySchema) : ShopifySchema :=
  let schema := if !truthyS schema.name
    then { schema with name := some ("Unnamed Section".data) } else schema
  { schema with
    settings := some (schema.settings.getD [])
    blocks := some (schema.blocks.getD [])
    presets := some (schema.presets.getD []) }

/-- First line of `rest` whose trimmed form is non-empty (the
`while (lines[nextLineIndex].trim() === '')` skip loop). -/
def firstNonBlank (rest : List Str) : Option Str :=
  rest.find? (fun l => !(trimS l).isEmpty)

/-- The per-line trigger of `fixTrailingCommas`: trimmed line ends in `,]`,
`,}` or `,` and the next non-empty line starts with `]` or `}`. -/
def trailingCommaTrigger (line : Str) (rest : List Str) : Bool :=
  let t := trimS line
  (endsWithS t (",]".data) || endsWithS t (",\x7d".data) || endsWithS t (",".data)) &&
    (match firstNonBlank rest with
     | some n => startsWithS (trimS n) ("]".data) || startsWithS (trimS n) ("\x7d".data)
     | none => false)

/-- JS `line.replace(/,(\s*)$/, '$1')`: remove a comma that is followed only
by whitespace up to the end of the line; otherwise leave the line unchanged. -/
def removeTrailingComma (line : Str) : Str :=
  let revWs := line.reverse.takeWhile Char.isWhitespace
  let revCore := line.reverse.dropWhile Char.isWhitespace
  match revCore with
  | ',' :: revRest => revRest.reverse ++ revWs.reverse
  | _ => line

/-- JS `line.lastIndexOf(',') + 1` (0 when there is no comma). -/
def lastCommaColumn (line : Str) : Nat :=
  match (line.reverse.takeWhile (fun c => c ≠ ',')).length, line.reverse.length with
  | k, n => if (line.reverse.dropWhile (fun c => c ≠ ',')).isEmpty then 0 else n - k

/-- The issue pushed by `fixTrailingCommas` for (0-based) line index `i`. -/
def mkTrailingIssue (i : Nat) (line : Str) : JsonIssue :=
  { type := .trailingComma
    line := i + 1
    column := lastCommaColumn line
    message := "Trailing comma before closing bracket/brace".data
    suggestion := "Remove the comma before the closing bracket or brace".data
    fixed := true }

/-- Loop body of `fixTrailingCommas` (`schemaParser.ts` lines 183-213): each
iteration only rewrites its own line and looks ahead at untouched lines, so it
is a simple structural recursion. -/
def fixTrailingCommasGo (i : Nat) : List Str → List Str × List JsonIssue
  | [] => ([], [])
  | line :: rest =>
    let (rest', issues) := fixTrailingCommasGo (i + 1) rest
    if trailingCommaTrigger line rest
    then (removeTrailingComma line :: rest', mkTrailingIssue i line :: issues)
    else (line :: rest', issues)

/-- `fixTrailingCommas` (`schemaParser.ts` lines 179-216). -/
def fixTrailingCommas (content : Str) (issues : List JsonIssue) : Str × List JsonIssue :=
  let lines := splitOnC '\n' content
  let (lines', newIssues) := fixTrailingCommasGo 0 lines
  (if newIssues.isEmpty then content else joinC '\n' lines', issues ++ newIssues)

/-- JS `/^\w/` on the first character. -/
def headIsWordChar (s : Str) : Bool :=
  match s with
  | [] => false
  | c :: _ => c.isAlphanum || c = '_'

/-- JS `line.replace(/(\s*)$/, ',$1')`: insert a comma before the trailing
whitespace of the line. -/
def insertComma (line : Str) : Str :=
  let revWs := line.reverse.takeWhile Char.isWhitespace
  let revCore := line.reverse.dropWhile Char.isWhitespace
  revCore.reverse ++ [','] ++ revWs.reverse

/-- The pair trigger of `fixMissingCommas` (`schemaParser.ts` lines 230-239),
on trimmed current/next lines. -/
def missingCommaTrigger (cur next : Str) : Bool :=
  (endsWithS cur ("\x7d".data) || endsWithS cur ("]".data) || endsWithS cur ("\"".data)) &&
  (startsWithS next ("\x7b".data) || startsWithS next ("\"".data) || headIsWordChar next) &&
  !(startsWithS next ("\x7d".data) || startsWithS next ("]".data)) &&
  !(endsWithS cur (",".data))

/-- The issue pushed by `fixMissingCommas` for (0-based) line index `i`
(`column` reads the already-modified line). -/
def mkMissingIssue (i : Nat) (modifiedLine : Str) : JsonIssue :=
  { type := .missingComma
    line := i + 1
    column := modifiedLine.length
    message := "Missing comma between JSON elements".data
    suggestion := "Add a comma after this line to separate JSON elements".data
    fixed := true }

/-- Loop body of `fixMissingCommas` (`schemaParser.ts` lines 225-254). -/
def fixMissingCommasGo (i : Nat) : List Str → List Str × List JsonIssue
  | [] => ([], [])
  | [l] => ([l], [])
  | l1 :: l2 :: rest =>
    let (tail', issues) := fixMissingCommasGo (i + 1) (l2 :: rest)
    if missingCommaTrigger (trimS l1) (trimS l2)
    then (insertComma l1 :: tail', mkMissingIssue i (insertComma l1) :: issues)
    else (l1 :: tail', issues)

/-- `fixMissingCommas` (`schemaParser.ts` lines 221-257). -/
def fixMissingCommas (content : Str) (issues : List JsonIssue) : Str × List JsonIssue :=
  let lines := splitOnC '\n' content
  let (lines', newIssues) := fixMissingCommasGo 0 lines
  (if newIssues.isEmpty then content else joinC '\n' lines', issues ++ newIssues)

/-- Some line of the list triggers the trailing-comma repair (each line is
checked against the lines following it, as in the source loop). -/
def anyTrailingTrigger : List Str → Bool
  | [] => false
  | l :: rest => trailingCommaTrigger l rest || anyTrailingTrigger rest

/-- No line of the prefix `A` triggers the trailing-comma repair, when the
whole line list is `A ++ tail`. -/
def trigFreePrefix : List Str → List Str → Bool
  | [], _ => true
  | a :: A, tail => !trailingCommaTrigger a (A ++ tail) && trigFreePrefix A tail

/-- Some adjacent line pair triggers the missing-comma repair. -/
def anyMissingTrigger : List Str → Bool
  | [] => false
  | [_] => false
  | l1 :: l2 :: rest =>
    missingCommaTrigger (trimS l1) (trimS l2) || anyMissingTrigger (l2 :: rest)

/-- Full matches of the global regex `/:\s*"([^"]*)"/g` in one line, in
scan order. -/
def stringValueMatchesGo : Nat → Str → List Str
  | 0, _ => []
  | _ + 1, [] => []
  | fuel + 1, c :: r =>
    if c = ':' then
      let w := r.takeWhile Char.isWhitespace
      match r.dropWhile Char.isWhitespace with
      | '"' :: r2 =>
        let body := r2.takeWhile (fun x => x ≠ '"')
        match r2.dropWhile (fun x => x ≠ '"') with
        | '"' :: r4 => (':' :: w ++ '"' :: body ++ ['"']) :: stringValueMatchesGo fuel r4
        | _ => stringValueMatchesGo fuel r
      | _ => stringValueMatchesGo fuel r
    else stringValueMatchesGo fuel r

/-- The scanner consumes at least one character per step, so fuelling it with
the line length always suffices. -/
def stringValueMatches (s : Str) : List Str := stringValueMatchesGo s.length s

/-- JS `match.substring(match.indexOf('"') + 1, match.lastIndexOf('"'))`:
the segment strictly between the first and the last double quote. -/
def stringContentOf (m : Str) : Str :=
  let afterFirst := (m.dropWhile (fun c => c ≠ '"')).drop 1
  ((afterFirst.reverse.dropWhile (fun c => c ≠ '"')).drop 1).reverse

/-- JS `line.indexOf(sub)`, as an option. -/
def idxOfSubAux (p : Str) (k : Nat) : Str → Option Nat
  | [] => if p.isEmpty then some k else none
  | s@(_ :: t) => if p.isPrefixOf s then some k else idxOfSubAux p (k + 1) t

/-- The issue check of `fixUnescapedQuotes` for a single regex match
(`schemaParser.ts` lines 278-295). -/
def unescapedIssueFilter (i : Nat) (line m : Str) : Option JsonIssue :=
  let sc := stringContentOf m
  if sc.contains '"' && !includesSub sc ("\\\"".data) then
    if !includesSub sc ("\x7b\x7b".data) && !includesSub sc ("\x7d\x7d".data) then
      some { type := .unescapedQuote
             line := i + 1
             column := (idxOfSubAux m 0 line).getD (0 - 1) + 1
             message := "Possible unescaped quote in string".data
             suggestion := "Escape quotes inside strings with \\\" or check for proper string termination".data
             fixed := false }
    else none
  else none

/-- `fixUnescapedQuotes` (`schemaParser.ts` lines 262-301).  Never rewrites
the content (the source returns it unchanged). -/
def fixUnescapedQuotes (content : Str) (issues : List JsonIssue) : Str × List JsonIssue :=
  let lines := splitOnC '\n' content
  let newIssues := (lines.enum.map (fun p =>
    if !(p.2.contains ':') || !(p.2.contains '"') then []
    else (stringValueMatches p.2).filterMap (unescapedIssueFilter p.1 p.2))).flatten
  (content, issues ++ newIssues)

/-- First match of `/at position (\d+)/` in an error message. -/
def findPosMatch : Str → Option Nat
  | [] => none
  | s@(_ :: t) =>
    if ("at position ".data).isPrefixOf s then
      let ds := (s.drop ("at position ".data).length).takeWhile Char.isDigit
      if ds.isEmpty then findPosMatch t else some (parseNat ds)
    else findPosMatch t

/-- `extractLineFromError` (`schemaParser.ts` lines 306-315). -/
def extractLineFromError (errorMessage content : Str) : Nat :=
  match findPosMatch errorMessage with
  | some position => (splitOnC '\n' (content.take position)).length
  | none => 1

/-- The suggestion text of the final catch-all issue. -/
def jsonSuggestion : Str :=
  "Check the JSON syntax. Common issues include missing quotes, brackets, or commas.".data

/-- `parseJsonWithRecovery` (`schemaParser.ts` lines 123-174).  `parse` is the
strict `JSON.parse` primitive; `.error` models a thrown exception, caught
here and only here. -/
def parseJsonWithRecovery (parse : Str → Except Str ShopifySchema)
    (content : Str) : ParseResult :=
  match parse content with
  | .ok schema =>
    { schema := some (validateAndCleanSchema schema), issues := [], originalError := none }
  | .error originalError =>
    let r1 := fixTrailingCommas content []
    let r2 := fixMissingCommas r1.1 r1.2
    let r3 := fixUnescapedQuotes r2.1 r2.2
    match parse r3.1 with
    | .ok schema =>
      { schema := some (validateAndCleanSchema schema), issues := r3.2
        originalError := some originalError }
    | .error finalError =>
      { schema := none
        issues := r3.2 ++ [{ type := .other
                             line := extractLineFromError finalError r3.1
                             column := 0
                             message := finalError
                             suggestion := jsonSuggestion
                             fixed := false }]
        originalError := some finalError }

/-! ## Block extractor (`parseDocument`, `schemaParser.ts` lines 92-118)

The regex `/\x7b%\s*schema\s*%\x7d([\s\S]*?)\x7b%\s*endschema\s*%\x7d/i` is a
deterministic scanner: at a candidate position the literal `\x7b%` is
consumed, greedy `\s*` runs cannot backtrack because they are followed by
non-whitespace literals, and the lazy group stops at the first closing
marker. -/

/-- Case-insensitive literal match (`kw` given in lowercase), returning the
rest of the input. -/
def matchKeywordCI : Str → Str → Option Str
  | [], s => some s
  | _ :: _, [] => none
  | k :: kr, c :: cr => if c.toLower = k then matchKeywordCI kr cr else none

/-- Match `\x7b%\s*schema\s*%\x7d` at the head of the input. -/
def matchOpenMarker (s : Str) : Option Str :=
  match s with
  | '\x7b' :: '%' :: r =>
    match matchKeywordCI ("schema".data) (r.dropWhile Char.isWhitespace) with
    | some r2 =>
      match r2.dropWhile Char.isWhitespace with
      | '%' :: '\x7d' :: r3 => some r3
      | _ => none
    | none => none
  | _ => none

/-- Match `\x7b%\s*endschema\s*%\x7d` at the head of the input. -/
def matchEndMarker (s : Str) : Option Str :=
  match s with
  | '\x7b' :: '%' :: r =>
    match matchKeywordCI ("endschema".data) (r.dropWhile Char.isWhitespace) with
    | some r2 =>
      match r2.dropWhile Char.isWhitespace with
      | '%' :: '\x7d' :: r3 => some r3
      | _ => none
    | none => none
  | _ => none

/-- The lazy group `([\s\S]*?)`: text up to the first closing marker. -/
def splitAtEndMarker : Str → Option Str
  | [] => none
  | s@(c :: r) =>
    if (matchEndMarker s).isSome then some []
    else match splitAtEndMarker r with
      | some inner => some (c :: inner)
      | none => none

/-- `text.match(/\x7b%\s*schema\s*%\x7d([\s\S]*?)\x7b%\s*endschema\s*%\x7d/i)`:
the captured group of the leftmost match. -/
def extractSchemaBlock : Str → Option Str
  | [] => none
  | s@(_ :: r) =>
    match matchOpenMarker s with
    | some rest =>
      match splitAtEndMarker rest with
      | some inner => some inner
      | none => extractSchemaBlock r
    | none => extractSchemaBlock r

/-- `detectFileType` (`schemaParser.ts` lines 387-409). -/
def detectFileType (filePath : Str) : FileType :=
  let normalizedPath := filePath.map (fun c => if c = '\\' then '/' else c)
  if includesSub normalizedPath ("/blocks/".data) then .block
  else if includesSub normalizedPath ("/sections/".data) then .section
  else
    let pathParts := splitOnC '/' normalizedPath
    match (if pathParts.length ≥ 2 then pathParts.get? (pathParts.length - 2) else none) with
    | some parentFolder =>
      if parentFolder = "blocks".data then .block
      else if parentFolder = "sections".data then .section
      else .section
    | none => .section

/-- `parseDocument` (`schemaParser.ts` lines 92-118); a document is its file
name plus its text. -/
def parseDocument (parse : Str → Except Str ShopifySchema)
    (fileName text : Str) : ParseResult :=
  match extractSchemaBlock text with
  | none =>
    { schema := none, issues := [], originalError := some ("No schema block found".data) }
  | some raw =>
    let result := parseJsonWithRecovery parse (trimS raw)
    match result.schema with
    | some s =>
      let s := { s with filePath := some fileName
                        fileType := some (detectFileType fileName)
                        jsonIssues := some result.issues }
      { result with schema := some (validateAndCleanSchema s) }
    | none => result

/-! ## Validator (`schemaValidator.ts`, i.e. `src/unnamed/part_000`) -/

/-- `ValidationError` (the `type` discriminant is constantly the string
`error`; the optional `line` field is never written by the validator). -/
structure ValidationError where
  message : Str
  path : Option Str := none
deriving DecidableEq, Repr

/-- `ValidationWarning`. -/
structure ValidationWarning where
  message : Str
  path : Option Str := none
  suggestion : Option Str := none
deriving DecidableEq, Repr

/-- `ValidationResult`. -/
structure ValidationResult where
  isValid : Bool
  errors : List ValidationError
  warnings : List ValidationWarning
deriving DecidableEq, Repr

/-- Findings of one validation pass: errors then warnings. -/
abbrev Findings := List ValidationError × List ValidationWarning

/-- JS template interpolation of a possibly-undefined string. -/
def showOpt : Option Str → Str
  | none => "undefined".data
  | some s => s

/-- The logical path `settings[i]`. -/
def settingsPath (i : Nat) : Str := "settings[".data ++ natStr i ++ "]".data

/-- The logical path `blocks[i]`. -/
def blocksPath (i : Nat) : Str := "blocks[".data ++ natStr i ++ "]".data

/-- The logical path `presets[i]`. -/
def presetsPath (i : Nat) : Str := "presets[".data ++ natStr i ++ "]".data

/-- The logical path `presets[i].blocks[j]`. -/
def presetBlockPath (i j : Nat) : Str :=
  presetsPath i ++ ".blocks[".data ++ natStr j ++ "]".data

/-- `validateBasicStructure` (part_000 lines 57-84). -/
def validateBasicStructure (schema : ShopifySchema) : Findings :=
  let w1 := if !truthyS schema.name || (trimS (schema.name.getD [])).isEmpty
    then [{ message := "Section name is empty or missing".data
            suggestion := some ("Add a descriptive name for your section".data) : ValidationWarning }]
    else []
  let w2 := if truthyS schema.name && decide ((schema.name.getD []).length > 50)
    then [{ message := "Section name is very long (over 50 characters)".data
            suggestion := some ("Consider using a shorter, more concise name".data) : ValidationWarning }]
    else []
  let w3 := if truthyS schema.tag && !(schema.tag = some ("section".data))
    then [{ message := "Tag \"".data ++ showOpt schema.tag ++ "\" is unusual for sections".data
            suggestion := some ("Most sections use \"section\" or omit this property".data) : ValidationWarning }]
    else []
  ([], w1 ++ w2 ++ w3)

/-- `setting.type === 'header' || setting.type === 'paragraph'`. -/
def isHeaderType (t : Option Str) : Bool :=
  t = some ("header".data) || t = some ("paragraph".data)

/-- The allow-list of the 29 known setting types (part_000 lines 180-191). -/
def validTypes : List Str :=
  [ "text".data, "textarea".data, "number".data, "range".data, "checkbox".data,
    "select".data, "radio".data,
    "article".data, "blog".data, "collection".data, "collection_list".data,
    "color".data, "color_background".data, "color_scheme".data,
    "color_scheme_group".data, "font_picker".data, "html".data,
    "image_picker".data, "inline_richtext".data, "link_list".data,
    "liquid".data, "metaobject".data, "metaobject_list".data, "page".data,
    "product".data, "product_list".data, "richtext".data,
    "text_alignment".data, "url".data, "video".data, "video_url".data,
    "header".data, "paragraph".data ]

/-- `/^[a-z][a-z0-9_]*$/`. -/
def isSnakeCase (s : Str) : Bool :=
  match s with
  | [] => false
  | c :: r => c.isLower && r.all (fun x => x.isLower || x.isDigit || x = '_')

/-- Count of non-overlapping matches of a doubled character (the global
regexes `/\x7b\x7b/g` and `/\x7d\x7d/g`). -/
def countDoubled (c : Char) : Str → Nat
  | a :: b :: t => if a = c && b = c then 1 + countDoubled c t else countDoubled c (b :: t)
  | _ => 0

/-! Named finding records (messages and suggestions exactly as pushed by the
source; naming them keeps proof terms small). -/

/-- Warning: visible_if lacks the double-brace Liquid wrapper. -/
def liquidWrapWarn (vp : Str) : ValidationWarning :=
  { message := "visible_if should contain Liquid code wrapped in \x7b\x7b \x7d\x7d".data
    path := some vp
    suggestion := some ("Use Liquid syntax like \x7b\x7b section.settings.field_name == true \x7d\x7d".data) }

/-- Warning: visible_if references no settings namespace. -/
def liquidRefWarn (vp : Str) : ValidationWarning :=
  { message := "visible_if should reference settings using section.settings.* or block.settings.*".data
    path := some vp
    suggestion := some ("Reference other settings like \x7b\x7b section.settings.enable_feature == true \x7d\x7d".data) }

/-- Error: unbalanced double braces in visible_if. -/
def liquidBracesErr (vp : Str) : ValidationError :=
  { message := "Unbalanced Liquid braces in visible_if".data, path := some vp }

/-- `validateVisibleIf` (part_000 lines 324-358). -/
def validateVisibleIf (visibleIf : Str) (path : Str) : Findings :=
  let vp := path ++ ".visible_if".data
  let w1 := if !includesSub visibleIf ("\x7b\x7b".data) || !includesSub visibleIf ("\x7d\x7d".data)
    then [liquidWrapWarn vp]
    else []
  let w2 := if includesSub visibleIf ("section.settings.".data) || includesSub visibleIf ("block.settings.".data)
    then []
    else [liquidRefWarn vp]
  let e1 := if !(countDoubled '\x7b' visibleIf = countDoubled '\x7d' visibleIf)
    then [liquidBracesErr vp]
    else []
  (e1, w1 ++ w2)

/-- Error: unknown setting type. -/
def unknownTypeErr (t : Option Str) (path : Str) : ValidationError :=
  { message := "Unknown setting type: \"".data ++ showOpt t ++ "\"".data, path := some path }

/-- Error: range needs both bounds. -/
def rangeBothErr (path : Str) : ValidationError :=
  { message := "Range settings require both min and max properties".data, path := some path }

/-- Error: range min not below max. -/
def rangeOrderErr (path : Str) : ValidationError :=
  { message := "Range min value must be less than max value".data, path := some path }

/-- Error: range step not positive. -/
def rangeStepErr (path : Str) : ValidationError :=
  { message := "Range step must be greater than 0".data, path := some path }

/-- Error: select/radio without options. -/
def optionsRequiredErr (t : Option Str) (path : Str) : ValidationError :=
  { message := showOpt t ++ " settings require options array".data, path := some path }

/-- Warning: header without content. -/
def headerContentWarn (path : Str) : ValidationWarning :=
  { message := "Header settings should have content property".data
    path := some path
    suggestion := some ("Add content property to display text for this header".data) }

/-- Warning: paragraph without content. -/
def paragraphContentWarn (path : Str) : ValidationWarning :=
  { message := "Paragraph settings should have content property".data
    path := some path
    suggestion := some ("Add content property to display text for this paragraph".data) }

/-- Error: bad text_alignment default. -/
def textAlignmentErr (path : Str) : ValidationError :=
  { message := "text_alignment default must be \"left\", \"center\", or \"right\"".data
    path := some path }

/-- Error: metaobject without discriminator. -/
def metaobjectErr (path : Str) : ValidationError :=
  { message := "metaobject settings require metaobject_type property".data, path := some path }

/-- Error: list-picker limit out of range. -/
def listLimitErr (t : Option Str) (path : Str) : ValidationError :=
  { message := showOpt t ++ " limit must be between 1 and 50".data, path := some path }

/-- Error: invalid video provider. -/
def providerErr (provider : Str) (path : Str) : ValidationError :=
  { message := "Invalid video provider: \"".data ++ provider ++
      "\". Valid options are: youtube, vimeo".data
    path := some path }

/-- Error: video_url accept is not an array. -/
def acceptArrayErr (path : Str) : ValidationError :=
  { message := "video_url accept property must be an array".data, path := some path }

/-- `validateSettingType` (part_000 lines 179-322).  The TS `switch` compares
`setting.type` with each case label via `===`; it is modelled as the
corresponding chain of equality tests (fall-through pairs become
disjunctions). -/
def validateSettingType (setting : Setting) (path : Str) : Findings :=
  let e0 := if !(match setting.type with | some t => validTypes.contains t | none => false)
    then [unknownTypeErr setting.type path]
    else []
  let sw : Findings :=
    if setting.type = some ("range".data) then
      let eReq := if setting.min = none || setting.max = none
        then [rangeBothErr path]
        else if decide (setting.min.getD 0 ≥ setting.max.getD 0)
        then [rangeOrderErr path]
        else []
      let eStep := if setting.step.isSome && decide (setting.step.getD 0 ≤ 0)
        then [rangeStepErr path]
        else []
      (eReq ++ eStep, [])
    else if setting.type = some ("select".data) ∨ setting.type = some ("radio".data) then
      (if setting.options = none || (setting.options.getD []).isEmpty
       then [optionsRequiredErr setting.type path]
       else [], [])
    else if setting.type = some ("header".data) then
      ([], if !truthyS setting.content then [headerContentWarn path] else [])
    else if setting.type = some ("paragraph".data) then
      ([], if !truthyS setting.content then [paragraphContentWarn path] else [])
    else if setting.type = some ("text_alignment".data) then
      (if truthyS setting.default &&
          !(["left".data, "center".data, "right".data].contains (setting.default.getD []))
       then [textAlignmentErr path]
       else [], [])
    else if setting.type = some ("metaobject".data) then
      (if !truthyS setting.metaobject_type then [metaobjectErr path] else [], [])
    else if setting.type = some ("collection_list".data) ∨
        setting.type = some ("product_list".data) then
      (if setting.limit.isSome &&
          (decide (setting.limit.getD 0 < 1) || decide (setting.limit.getD 0 > 50))
       then [listLimitErr setting.type path]
       else [], [])
    else if setting.type = some ("video_url".data) then
      (match setting.accept with
       | some (.arr providers) =>
         providers.filterMap (fun provider =>
           if !(["youtube".data, "vimeo".data].contains provider)
           then some (providerErr provider path)
           else none)
       | some .notArray => [acceptArrayErr path]
       | none => [], [])
    else ([], [])
  let vi := match setting.visible_if with
    | some v => if !v.isEmpty then validateVisibleIf v path else ([], [])
    | none => ([], [])
  (e0 ++ sw.1 ++ vi.1, sw.2 ++ vi.2)

/-- Error: setting type missing. -/
def typeRequiredErr (path : Str) : ValidationError :=
  { message := "Setting type is required".data, path := some path }

/-- Error: setting id missing. -/
def idRequiredErr (path : Str) : ValidationError :=
  { message := "Setting id is required".data, path := some path }

/-- Warning: setting label missing. -/
def labelMissingWarn (path : Str) : ValidationWarning :=
  { message := "Setting label is missing".data
    path := some path
    suggestion := some ("Add a user-friendly label for this setting".data) }

/-- Warning: header/paragraph without content. -/
def contentMissingWarn (t : Option Str) (path : Str) : ValidationWarning :=
  { message := showOpt t ++ " setting should have content property".data
    path := some path
    suggestion := some ("Add a content property to display text for this header/paragraph".data) }

/-- Error: duplicate setting identifier. -/
def duplicateIdErr (v path : Str) : ValidationError :=
  { message := "Duplicate setting ID: \"".data ++ v ++ "\"".data, path := some path }

/-- Warning: setting id not snake_case. -/
def idFormatWarn (v path : Str) : ValidationWarning :=
  { message := "Setting ID \"".data ++ v ++
      "\" should use lowercase letters, numbers, and underscores only".data
    path := some path
    suggestion := some ("Use snake_case format for IDs".data) }

/-- Warning: header/paragraph carries an id. -/
def headerIdWarn (t : Option Str) (path : Str) : ValidationWarning :=
  { message := showOpt t ++ " settings should not have an ID property".data
    path := some path
    suggestion := some ("Remove the ID property for ".data ++ showOpt t ++
      " elements - they use content instead".data) }

/-- Warning: header/paragraph carries a label. -/
def headerLabelWarn (t : Option Str) (path : Str) : ValidationWarning :=
  { message := showOpt t ++ " settings should not have a label property".data
    path := some path
    suggestion := some ("Remove the label property for ".data ++ showOpt t ++
      " elements - they use content instead".data) }

/-- One iteration of the `validateSettings` loop (part_000 lines 89-176):
findings of setting number `idx` given the identifiers seen so far, plus the
updated seen set. -/
def settingStep (idx : Nat) (seen : List Str) (setting : Setting) :
    Findings × List Str :=
  let path := settingsPath idx
  let isHeader := isHeaderType setting.type
  let e1 := if !truthyS setting.type then [typeRequiredErr path] else []
  let e2 := if !truthyS setting.id && !isHeader then [idRequiredErr path] else []
  let w1 := if !truthyS setting.label && !isHeader then [labelMissingWarn path] else []
  let w2 := if isHeader && !truthyS setting.content
    then [contentMissingWarn setting.type path]
    else []
  let dup : List ValidationError × List ValidationWarning × List Str :=
    if truthyS setting.id && !isHeader then
      let id := setting.id.getD []
      let e3 := if seen.contains id then [duplicateIdErr id path] else []
      let seen' := if seen.contains id then seen else seen ++ [id]
      let w3 := if !isSnakeCase id then [idFormatWarn id path] else []
      (e3, w3, seen')
    else ([], [], seen)
  let w4 := if isHeader && truthyS setting.id then [headerIdWarn setting.type path] else []
  let w5 := if isHeader && truthyS setting.label then [headerLabelWarn setting.type path] else []
  let st := validateSettingType setting path
  ((e1 ++ e2 ++ dup.1 ++ st.1, w1 ++ w2 ++ dup.2.1 ++ w4 ++ w5 ++ st.2), dup.2.2)

/-- The `settings.forEach` loop of `validateSettings`, threading the
duplicate-identifier `Set`. -/
def validateSettingsGo (idx : Nat) (seen : List Str) :
    List Setting → Findings × List Str
  | [] => (([], []), seen)
  | setting :: rest =>
    let (f, seen') := settingStep idx seen setting
    let (fs, seenOut) := validateSettingsGo (idx + 1) seen' rest
    ((f.1 ++ fs.1, f.2 ++ fs.2), seenOut)

/-- `validateSettings` (part_000 lines 86-177). -/
def validateSettings (settings : List Setting) : Findings :=
  (validateSettingsGo 0 [] settings).1

/-- `block.type === '@app' || block.type === '@theme'`. -/
def isSpecialBlockType (t : Option Str) : Bool :=
  t = some ("@app".data) || t = some ("@theme".data)

/-- One iteration of the `validateBlocks` loop (part_000 lines 363-434). -/
def blockStep (idx : Nat) (seen : List Str) (block : Block) :
    Findings × List Str :=
  let path := blocksPath idx
  let isSpecial := isSpecialBlockType block.type
  let e1 := if !truthyS block.type
    then [{ message := "Block type is required".data, path := some path : ValidationError }]
    else []
  let e2 := if !truthyS block.name && !isSpecial
    then [{ message := "Block name is required".data, path := some path : ValidationError }]
    else []
  let w1 := if truthyS block.name && isSpecial
    then [{ message := "Block type \"".data ++ showOpt block.type ++
              "\" should not have a name property".data
            path := some path
            suggestion := some ("Remove the name property for @app and @theme blocks".data) : ValidationWarning }]
    else []
  let typed : List ValidationWarning × List Str :=
    if truthyS block.type then
      let t := block.type.getD []
      let w2 := if seen.contains t
        then [{ message := "Duplicate block type: \"".data ++ t ++ "\"".data
                path := some path
                suggestion := some ("Consider using unique block types or combining similar blocks".data) : ValidationWarning }]
        else []
      let seen' := if seen.contains t then seen else seen ++ [t]
      let w3 := if !isSpecial && !isSnakeCase t
        then [{ message := "Block type \"".data ++ t ++
                  "\" should use lowercase letters, numbers, and underscores only".data
                path := some path
                suggestion := some ("Use snake_case format for block types (or use @app/@theme for dynamic blocks)".data) : ValidationWarning }]
        else []
      let w4 := if isSpecial && block.settings.isSome && !(block.settings.getD []).isEmpty
        then [{ message := "Block type \"".data ++ t ++ "\" should not have settings".data
                path := some path
                suggestion := some ("@app and @theme blocks load their settings dynamically".data) : ValidationWarning }]
        else []
      (w2 ++ w3 ++ w4, seen')
    else ([], seen)
  let nested : Findings :=
    match block.settings with
    | some ss => if !isSpecial then validateSettings ss else ([], [])
    | none => ([], [])
  ((e1 ++ e2 ++ nested.1, w1 ++ typed.1 ++ nested.2), typed.2)

/-- The `blocks.forEach` loop, threading the duplicate-type `Set`. -/
def validateBlocksGo (idx : Nat) (seen : List Str) :
    List Block → Findings × List Str
  | [] => (([], []), seen)
  | block :: rest =>
    let (f, seen') := blockStep idx seen block
    let (fs, seenOut) := validateBlocksGo (idx + 1) seen' rest
    ((f.1 ++ fs.1, f.2 ++ fs.2), seenOut)

/-- `validateBlocks` (part_000 lines 360-435). -/
def validateBlocks (blocks : List Block) : Findings :=
  (validateBlocksGo 0 [] blocks).1

/-- The name warning pushed for a reserved dynamic `@app` block. -/
def appNameWarning (idx : Nat) : ValidationWarning :=
  { message := "Block type \"@app\" should not have a name property".data
    path := some (blocksPath idx)
    suggestion := some ("Remove the name property for @app and @theme blocks".data) }

/-- A setting participates in the duplicate-identifier check iff its id is
truthy and it is not a header/paragraph setting (part_000 line 132). -/
def eligibleSetting (s : Setting) : Bool :=
  truthyS s.id && !isHeaderType s.type

/-- The identifiers participating in the duplicate check, in order. -/
def eligIds (ss : List Setting) : List Str :=
  ss.filterMap (fun s => if eligibleSetting s then s.id else none)

/-- Recognizer for the duplicate-identifier error. -/
def isDupError (e : ValidationError) : Bool :=
  ("Duplicate setting ID".data).isPrefixOf e.message

/-- The warning pushed for an unknown preset-block type reference
(part_000 lines 494-501). -/
def unknownBlockRefWarn (t : Option Str) (i j : Nat) : ValidationWarning :=
  { message := "Preset block references unknown block type: \"".data ++
      showOpt t ++ "\"".data
    path := some (presetBlockPath i j)
    suggestion := some ("Make sure this block type exists in the blocks array, or add @app/@theme blocks to accept dynamic blocks".data) }

/-- The warning pushed for a preset settings key that names no schema
setting (part_000 lines 461-469). -/
def unknownSettingIdWarn (settingId : Str) (i : Nat) : ValidationWarning :=
  { message := "Preset references unknown setting ID: \"".data ++ settingId ++ "\"".data
    path := some (presetsPath i ++ ".settings.".data ++ settingId)
    suggestion := some ("Make sure this setting ID exists in the settings array".data) }

/-- The warning pushed when the schema has no presets (part_000
lines 437-444). -/
def noPresetsWarn : ValidationWarning :=
  { message := "No presets defined".data
    suggestion := some ("Consider adding at least one preset to help users get started".data) }

/-- Recognizer for the unknown-preset-block-type warning, by its fixed
message prefix. -/
def isUnknownRefWarn (w : ValidationWarning) : Bool :=
  ("Preset block references".data).isPrefixOf w.message

/-- Recognizer for the unknown-preset-block-type warning attributed to the
reference `presets[i].blocks[j]`. -/
def refAt (i j : Nat) (w : ValidationWarning) : Bool :=
  isUnknownRefWarn w && (w.path == some (presetBlockPath i j))

/-- The warning pushed for one preset block reference when strict checking
applies (part_000 lines 482-503). -/
def presetBlockRefCheck (validBlockTypes : List (Option Str)) (acceptsAnyBlocks : Bool)
    (i j : Nat) (presetBlock : PresetBlock) : List ValidationWarning :=
  if acceptsAnyBlocks then []
  else if !(validBlockTypes.contains presetBlock.type) then
    [unknownBlockRefWarn presetBlock.type i j]
  else []

/-- The preset-settings key check of one `presets.forEach` iteration
(part_000 lines 457-471). -/
def presetKeyWarns (schema : ShopifySchema) (i : Nat) (preset : Preset) :
    List ValidationWarning :=
  match preset.settings, schema.settings with
  | some keys, some schemaSettings =>
    let validSettingIds := schemaSettings.map (fun s => s.id)
    keys.filterMap (fun settingId =>
      if !(validSettingIds.contains (some settingId)) then
        some (unknownSettingIdWarn settingId i)
      else none)
  | _, _ => []

/-- The preset-blocks reference check of one `presets.forEach` iteration
(part_000 lines 473-504). -/
def presetBlockWarns (schema : ShopifySchema) (i : Nat) (preset : Preset) :
    List ValidationWarning :=
  match preset.blocks, schema.blocks with
  | some presetBlocks, some schemaBlocks =>
    let validBlockTypes := schemaBlocks.map (fun b => b.type)
    let hasAppBlocks := schemaBlocks.any (fun b => b.type = some ("@app".data))
    let hasThemeBlocks := schemaBlocks.any (fun b => b.type = some ("@theme".data))
    let acceptsAnyBlocks := hasAppBlocks || hasThemeBlocks
    (presetBlocks.enum.map (fun p =>
      presetBlockRefCheck validBlockTypes acceptsAnyBlocks i p.1 p.2)).flatten
  | _, _ => []

/-- One iteration of the `presets.forEach` loop (part_000 lines 447-505). -/
def presetStep (schema : ShopifySchema) (i : Nat) (preset : Preset) : Findings :=
  let e1 := if !truthyS preset.name
    then [{ message := "Preset name is required".data, path := some (presetsPath i) : ValidationError }]
    else []
  (e1, presetKeyWarns schema i preset ++ presetBlockWarns schema i preset)

/-- `validatePresets` (part_000 lines 437-506). -/
def validatePresets (schema : ShopifySchema) : Findings :=
  match schema.presets with
  | none => ([], [noPresetsWarn])
  | some presets =>
    if presets.isEmpty then
      ([], [noPresetsWarn])
    else
      let fs := presets.enum.map (fun p => presetStep schema p.1 p.2)
      ((fs.map Prod.fst).flatten, (fs.map Prod.snd).flatten)

/-- `validateLimits` (part_000 lines 508-538). -/
def validateLimits (schema : ShopifySchema) : Findings :=
  let e1 := if schema.min_blocks.isSome && schema.max_blocks.isSome &&
      decide (schema.min_blocks.getD 0 > schema.max_blocks.getD 0)
    then [{ message := "min_blocks cannot be greater than max_blocks".data
            path := some ("limits".data) : ValidationError }]
    else []
  let w1 := if (schema.min_blocks.isSome || schema.max_blocks.isSome) &&
      (schema.blocks = none || (schema.blocks.getD []).isEmpty)
    then [{ message := "Block limits are set but no blocks are defined".data
            suggestion := some ("Define blocks or remove block limits".data) : ValidationWarning }]
    else []
  let w2 := if schema.max_blocks.isSome && decide (schema.max_blocks.getD 0 > 50)
    then [{ message := "Very high max_blocks limit may impact performance".data
            suggestion := some ("Consider if such a high limit is necessary".data) : ValidationWarning }]
    else []
  (e1, w1 ++ w2)

/-- `validateSchema` (part_000 lines 25-55). -/
def validateSchema (schema : ShopifySchema) : ValidationResult :=
  let basic := validateBasicStructure schema
  let setts := match schema.settings with
    | some ss => validateSettings ss
    | none => ([], [])
  let blks := match schema.blocks with
    | some bs => validateBlocks bs
    | none => ([], [])
  let pres := match schema.presets with
    | some _ => validatePresets schema
    | none => ([], [])
  let lims := validateLimits schema
  let errors := basic.1 ++ setts.1 ++ blks.1 ++ pres.1 ++ lims.1
  let warnings := basic.2 ++ setts.2 ++ blks.2 ++ pres.2 ++ lims.2
  { isValid := errors.length == 0, errors := errors, warnings := warnings }

/-! ## Path resolver (`getLineNumberFromValidationPath` and helpers,
`src/unnamed/part_001` lines 764-935)

`schemaLineMap` is a JS `Map<string, number>` modelled as an association
list; `mapGetT` applies the JS truthiness test that guards every
`if (lineNumber)` (a mapped value of `0` counts as absent). -/

/-- `Map.get` (raw). -/
def mapGet (m : List (Str × Nat)) (k : Str) : Option Nat := m.lookup k

/-- `Map.get` under the `if (lineNumber)` truthiness test. -/
def mapGetT (m : List (Str × Nat)) (k : Str) : Option Nat :=
  match m.lookup k with
  | some n => if n ≠ 0 then some n else none
  | none => none

/-- Match `pat(\d+)]` at the head of the input. -/
def tryIdxAt (pat : Str) (s : Str) : Option Nat :=
  if pat.isPrefixOf s then
    let rest := s.drop pat.length
    let ds := rest.takeWhile Char.isDigit
    if ds.isEmpty then none
    else match rest.drop ds.length with
      | ']' :: _ => some (parseNat ds)
      | _ => none
  else none

/-- JS `path.match(/pat\[(\d+)\]/)`: first position where the literal is
followed by a digit run and `]`; `pat` includes the opening bracket. -/
def findIdxMatch (pat : Str) : Str → Option Nat
  | [] => none
  | s@(_ :: t) =>
    match tryIdxAt pat s with
    | some n => some n
    | none => findIdxMatch pat t

/-- Match `presets\[\d+\]\.blocks\[(\d+)\]` at the head of the input. -/
def tryNestedAt (s : Str) : Bool :=
  if ("presets[".data).isPrefixOf s then
    let rest := s.drop ("presets[".data).length
    let ds := rest.takeWhile Char.isDigit
    if ds.isEmpty then false
    else
      let r2 := rest.drop ds.length
      if ("].blocks[".data).isPrefixOf r2 then
        let r3 := r2.drop ("].blocks[".data).length
        let ds2 := r3.takeWhile Char.isDigit
        if ds2.isEmpty then false
        else match r3.drop ds2.length with
          | ']' :: _ => true
          | _ => false
      else false
  else false

/-- JS `path.match(/presets\[\d+\]\.blocks\[(\d+)\]/)` as a test. -/
def hasNestedPresetBlock : Str → Bool
  | [] => false
  | s@(_ :: t) => tryNestedAt s || hasNestedPresetBlock t

/-- The identity lookup tried for setting number `k` during the backward
scan of `getApproximateSettingLine`. -/
def settingNameLookupAt (lineMap : List (Str × Nat)) (settings : List Setting)
    (k : Nat) : Option Nat :=
  match settings.get? k with
  | some s => if truthyS s.id then mapGetT lineMap ("setting:".data ++ s.id.getD []) else none
  | none => none

/-- The `for (let i = index; i >= 0; i--)` scan of
`getApproximateSettingLine`. -/
def scanSettingBack (lineMap : List (Str × Nat)) (settings : List Setting) :
    Nat → Option Nat
  | 0 => settingNameLookupAt lineMap settings 0
  | Nat.succ k =>
    match settingNameLookupAt lineMap settings (k + 1) with
    | some l => some l
    | none => scanSettingBack lineMap settings k

/-- `getApproximateSettingLine` (part_001 lines 881-900). -/
def getApproximateSettingLine (lineMap : List (Str × Nat))
    (schema : ShopifySchema) (index : Nat) : Option Nat :=
  match mapGetT lineMap ("schema:settings".data), schema.settings with
  | some settingsStart, some settings =>
    match scanSettingBack lineMap settings index with
    | some l => some l
    | none => some settingsStart
  | _, _ => none

/-- `getApproximateBlockLine` (part_001 lines 903-913). -/
def getApproximateBlockLine (lineMap : List (Str × Nat))
    (schema : ShopifySchema) (index : Nat) : Option Nat :=
  match mapGetT lineMap ("schema:blocks".data), schema.blocks with
  | some blocksStart, some _ => some (blocksStart + (index + 1) * 4)
  | _, _ => none

/-- The identity lookup tried for preset number `k` during the backward
scan of `getApproximatePresetLine`. -/
def presetNameLookupAt (lineMap : List (Str × Nat)) (presets : List Preset)
    (k : Nat) : Option Nat :=
  match presets.get? k with
  | some p => if truthyS p.name then mapGetT lineMap ("preset:".data ++ p.name.getD []) else none
  | none => none

/-- The `for (let i = index; i >= 0; i--)` scan of
`getApproximatePresetLine`. -/
def scanPresetBack (lineMap : List (Str × Nat)) (presets : List Preset) :
    Nat → Option Nat
  | 0 => presetNameLookupAt lineMap presets 0
  | Nat.succ k =>
    match presetNameLookupAt lineMap presets (k + 1) with
    | some l => some l
    | none => scanPresetBack lineMap presets k

/-- `getApproximatePresetLine` (part_001 lines 916-935). -/
def getApproximatePresetLine (lineMap : List (Str × Nat))
    (schema : ShopifySchema) (index : Nat) : Option Nat :=
  match mapGetT lineMap ("schema:presets".data), schema.presets with
  | some presetsStart, some presets =>
    match scanPresetBack lineMap presets index with
    | some l => some l
    | none => some presetsStart
  | _, _ => none

/-- The trailing general-section fallback of `getLineNumberFromValidationPath`
(part_001 lines 869-877). -/
def fallbackResolve (lineMap : List (Str × Nat)) (p : Str) : Option Nat :=
  if includesSub p ("settings".data) then mapGet lineMap ("schema:settings".data)
  else if includesSub p ("blocks".data) then mapGet lineMap ("schema:blocks".data)
  else if includesSub p ("presets".data) then mapGet lineMap ("schema:presets".data)
  else none

/-- `getLineNumberFromValidationPath` (part_001 lines 764-878). -/
def getLineNumberFromValidationPath (lineMap : List (Str × Nat))
    (currentSchema : Option ShopifySchema) (path : Option Str) : Option Nat :=
  match path, currentSchema with
  | some p, some schema =>
    if p.isEmpty then none
    else if startsWithS p ("settings[".data) then
      match findIdxMatch ("settings[".data) p, schema.settings with
      | some index, some settings =>
        (match mapGetT lineMap ("setting:index:".data ++ natStr index) with
         | some l => some l
         | none =>
           match (match settings.get? index with
                  | some s => if truthyS s.id
                      then mapGetT lineMap ("setting:".data ++ s.id.getD []) else none
                  | none => none) with
           | some l => some l
           | none => getApproximateSettingLine lineMap schema index)
      | _, _ => fallbackResolve lineMap p
    else if startsWithS p ("blocks[".data) then
      match findIdxMatch ("blocks[".data) p, schema.blocks with
      | some index, some blocks =>
        (match mapGetT lineMap ("block:index:".data ++ natStr index) with
         | some l => some l
         | none =>
           match blocks.get? index with
           | some block =>
             if isSpecialBlockType block.type then
               match mapGetT lineMap ("block:".data ++ block.type.getD [] ++ ":".data ++ natStr index) with
               | some l => some l
               | none => getApproximateBlockLine lineMap schema index
             else if truthyS block.name then
               match mapGetT lineMap ("block:".data ++ block.name.getD []) with
               | some l => some l
               | none => getApproximateBlockLine lineMap schema index
             else getApproximateBlockLine lineMap schema index
           | none => getApproximateBlockLine lineMap schema index)
      | _, _ => fallbackResolve lineMap p
    else if startsWithS p ("presets[".data) then
      match findIdxMatch ("presets[".data) p, schema.presets with
      | some presetIndex, some presets =>
        if hasNestedPresetBlock p then
          getApproximatePresetLine lineMap schema presetIndex
        else
          (match mapGetT lineMap ("preset:index:".data ++ natStr presetIndex) with
           | some l => some l
           | none =>
             match (match presets.get? presetIndex with
                    | some preset => if truthyS preset.name
                        then mapGetT lineMap ("preset:".data ++ preset.name.getD []) else none
                    | none => none) with
             | some l => some l
             | none => getApproximatePresetLine lineMap schema presetIndex)
      | _, _ => fallbackResolve lineMap p
    else if p = "limits".data then
      match mapGetT lineMap ("schema:limits".data) with
      | some l => some l
      | none => mapGet lineMap ("schema:settings".data)
    else fallbackResolve lineMap p
  | _, _ => none

/-! ## General helper lemmas -/

/-- Modelled on the amended claim's wording: resolution of a nested
`presets[i].blocks[j]` path requires the presets-section-start marker, scans
indices `i, i-1, …, 0` for the first preset whose name-identity key resolves,
and otherwise falls back to the section-start line; without the marker (or a
presets collection) the finding stays unresolved. -/
def nestedPresetResolutionSpec (lineMap : List (Str × Nat))
    (schema : ShopifySchema) (i : Nat) : Option Nat :=
  match mapGetT lineMap ("schema:presets".data), schema.presets with
  | some sectionStart, some presets =>
    match (List.range (i + 1)).reverse.findSome? (presetNameLookupAt lineMap presets) with
    | some l => some l
    | none => some sectionStart
  | _, _ => none

/-- The concrete document used by the C5 witness. -/
def c5doc : Str :=
  "x ".data ++ '\x7b' :: '%' :: ([' '] ++ ("SCHEMA".data ++ ([' '] ++ ('%' :: '\x7d' :: (" 1 ".data ++ '\x7b' :: '%' :: ([' '] ++ ("endSchema".data ++ (([] : Str) ++ ('%' :: '\x7d' :: " z".data)))))))))

theorem length_beq_zero_iff (l : List ValidationError) :
    ((l.length == 0) = true) ↔ l = [] := by
  cases l <;> simp

/-! ## C10 -/

/-- C10: for every schema, the Validator's result flag `isValid` is true if
and only if the errors list is empty; warnings never enter the
computation of the flag. -/
theorem validateSchema_isValid_iff_errors_nil (schema : ShopifySchema) :
    (validateSchema schema).isValid = true ↔ (validateSchema schema).errors = [] := by
  have h : (validateSchema schema).isValid =
      ((validateSchema schema).errors.length == 0) := rfl
  rw [h]
  exact length_beq_zero_iff _

/-! ## C1 -/

/-- C1: when the strict parse succeeds on the first attempt,
`parseJsonWithRecovery` returns zero issues and the strictly-parsed schema
with the name defaulted to the placeholder when absent or empty and
settings/blocks/presets defaulted to empty sequences when absent. -/
theorem parseJsonWithRecovery_valid_input
    (parse : Str → Except Str ShopifySchema) (content : Str) (s : ShopifySchema)
    (h : parse content = .ok s) :
    parseJsonWithRecovery parse content =
      { schema := some (validateAndCleanSchema s), issues := [], originalError := none } ∧
    ((s.name = none ∨ s.name = some []) →
      (validateAndCleanSchema s).name = some ("Unnamed Section".data)) ∧
    (¬(s.name = none ∨ s.name = some []) → (validateAndCleanSchema s).name = s.name) ∧
    (validateAndCleanSchema s).settings = some (s.settings.getD []) ∧
    (validateAndCleanSchema s).blocks = some (s.blocks.getD []) ∧
    (validateAndCleanSchema s).presets = some (s.presets.getD []) := by
  have htr : ∀ o : Option Str, truthyS o = false ↔ (o = none ∨ o = some []) := by
    intro o
    cases o with
    | none => simp [truthyS]
    | some l => cases l <;> simp [truthyS]
  refine ⟨?_, ?_, ?_, ?_, ?_, ?_⟩
  · simp [parseJsonWithRecovery, h]
  · intro hn
    have : truthyS s.name = false := (htr _).mpr hn
    simp [validateAndCleanSchema, this]
  · intro hn
    have : truthyS s.name = true := by
      rcases hb : truthyS s.name with _ | _
      · exact absurd ((htr _).mp hb) hn
      · rfl
    simp [validateAndCleanSchema, this]
  · by_cases ht : truthyS s.name = true <;> simp [validateAndCleanSchema, ht]
  · by_cases ht : truthyS s.name = true <;> simp [validateAndCleanSchema, ht]
  · by_cases ht : truthyS s.name = true <;> simp [validateAndCleanSchema, ht]

/-- Witness for C1 at a concrete parse function and input. -/
theorem parseJsonWithRecovery_valid_input_witness :
    parseJsonWithRecovery (fun _ => .ok {}) ("\x7b\x7d".data) =
      { schema := some (validateAndCleanSchema {}), issues := [], originalError := none } ∧
    ((({} : ShopifySchema).name = none ∨ ({} : ShopifySchema).name = some []) →
      (validateAndCleanSchema {}).name = some ("Unnamed Section".data)) ∧
    (¬(({} : ShopifySchema).name = none ∨ ({} : ShopifySchema).name = some []) →
      (validateAndCleanSchema {}).name = ({} : ShopifySchema).name) ∧
    (validateAndCleanSchema {}).settings = some (({} : ShopifySchema).settings.getD []) ∧
    (validateAndCleanSchema {}).blocks = some (({} : ShopifySchema).blocks.getD []) ∧
    (validateAndCleanSchema {}).presets = some (({} : ShopifySchema).presets.getD []) :=
  parseJsonWithRecovery_valid_input (fun _ => .ok {}) ("\x7b\x7d".data) {} rfl

/-! ## C3 -/

/-- Shared case analysis on the outcome of `parseJsonWithRecovery`. -/
theorem recoveryResultCases
    (parse : Str → Except Str ShopifySchema) (content : Str) :
    (∃ s, (parseJsonWithRecovery parse content).schema = some s) ∨
    ((parseJsonWithRecovery parse content).schema = none ∧
     (parseJsonWithRecovery parse content).originalError ≠ none ∧
     (parseJsonWithRecovery parse content).issues ≠ []) := by
  unfold parseJsonWithRecovery
  cases h1 : parse content with
  | ok s => exact Or.inl ⟨validateAndCleanSchema s, by simp [h1]⟩
  | error e =>
    simp only [h1]
    cases h2 : parse (fixUnescapedQuotes
        (fixMissingCommas (fixTrailingCommas content []).1 (fixTrailingCommas content []).2).1
        (fixMissingCommas (fixTrailingCommas content []).1 (fixTrailingCommas content []).2).2).1 with
    | ok s => exact Or.inl ⟨validateAndCleanSchema s, by simp [h2]⟩
    | error e2 => exact Or.inr (by simp [h2])

/-- C3: `parseJsonWithRecovery` is a total function into structured results:
it either returns a schema, or a null schema together with an error message
and a non-empty issue list; the throwing strict-parse primitive is modelled
by its `Except` parameter and both of its failure points are caught at this
boundary. -/
theorem parseJsonWithRecovery_never_escapes
    (parse : Str → Except Str ShopifySchema) (content : Str) :
    (∃ s, (parseJsonWithRecovery parse content).schema = some s) ∨
    ((parseJsonWithRecovery parse content).schema = none ∧
     (parseJsonWithRecovery parse content).originalError ≠ none ∧
     (parseJsonWithRecovery parse content).issues ≠ []) :=
  recoveryResultCases parse content

/-! ## C4 -/

/-- C4 counterexample: a document with no schema block yields a null schema
with an error message but an EMPTY issue list, contradicting the claim that
every null-schema result carries a non-empty issue list. -/
theorem parseDocument_no_block_has_empty_issues :
    (parseDocument (fun _ => .error ("x".data)) ("file.liquid".data) ("hello".data)).schema
        = none ∧
    (parseDocument (fun _ => .error ("x".data)) ("file.liquid".data) ("hello".data)).issues
        = [] ∧
    (parseDocument (fun _ => .error ("x".data)) ("file.liquid".data) ("hello".data)).originalError
        = some ("No schema block found".data) :=
  ⟨rfl, rfl, rfl⟩

/-- C4 (amended): a null-schema result always carries an error message; its
issue list is non-empty exactly when a schema block was found (strict parse
failed even after repair), and empty when no schema block exists in the
document. -/
theorem parseDocument_null_schema_shape
    (parse : Str → Except Str ShopifySchema) (fileName text : Str)
    (h : (parseDocument parse fileName text).schema = none) :
    (parseDocument parse fileName text).originalError ≠ none ∧
    (extractSchemaBlock text = none → (parseDocument parse fileName text).issues = []) ∧
    (extractSchemaBlock text ≠ none → (parseDocument parse fileName text).issues ≠ []) := by
  unfold parseDocument at h ⊢
  cases hE : extractSchemaBlock text with
  | none => simp [hE]
  | some raw =>
    simp only [hE] at h ⊢
    rcases recoveryResultCases parse (trimS raw) with ⟨s, hs⟩ | ⟨h1, h2, h3⟩
    · rw [hs] at h ⊢
      simp at h
    · rw [h1] at h ⊢
      simp only [h1]
      exact ⟨h2, by simp, fun _ => h3⟩

/-- Witness for C4 (amended) at a blockless document. -/
theorem parseDocument_null_schema_shape_witness :
    (parseDocument (fun _ => .error ("x".data)) ("file.liquid".data) ("hello".data)).originalError
        ≠ none ∧
    (extractSchemaBlock ("hello".data) = none →
      (parseDocument (fun _ => .error ("x".data)) ("file.liquid".data) ("hello".data)).issues = []) ∧
    (extractSchemaBlock ("hello".data) ≠ none →
      (parseDocument (fun _ => .error ("x".data)) ("file.liquid".data) ("hello".data)).issues ≠ []) :=
  parseDocument_null_schema_shape (fun _ => .error ("x".data)) ("file.liquid".data)
    ("hello".data) rfl

/-! ## Decimal rendering lemmas -/

theorem digitChar_toNat_sub (d : Nat) (h : d < 10) :
    (Nat.digitChar d).toNat - 48 = d := by
  interval_cases d <;> decide

theorem digitChar_isDigit (d : Nat) (h : d < 10) :
    (Nat.digitChar d).isDigit = true := by
  interval_cases d <;> decide

theorem natStr_ne_nil (n : Nat) : natStr n ≠ [] := by
  rw [natStr]
  split
  · simp
  · simp

theorem natStr_all_digit (n : Nat) : ∀ c ∈ natStr n, c.isDigit = true := by
  induction n using Nat.strong_induction_on with
  | _ n ih =>
    rw [natStr]
    split
    · intro c hc
      simp only [List.mem_singleton] at hc
      subst hc
      exact digitChar_isDigit n (by omega)
    · intro c hc
      rcases List.mem_append.mp hc with h1 | h2
      · exact ih (n / 10) (Nat.div_lt_self (by omega) (by omega)) c h1
      · simp only [List.mem_singleton] at h2
        subst h2
        exact digitChar_isDigit _ (Nat.mod_lt _ (by omega))

theorem parseNat_append_digit (a : Str) (c : Char) :
    parseNat (a ++ [c]) = parseNat a * 10 + (c.toNat - 48) := by
  simp [parseNat, List.foldl_append]

theorem parseNat_natStr (n : Nat) : parseNat (natStr n) = n := by
  induction n using Nat.strong_induction_on with
  | _ n ih =>
    rw [natStr]
    split
    · rename_i h
      show parseNat [Nat.digitChar n] = n
      have : parseNat [Nat.digitChar n] = (Nat.digitChar n).toNat - 48 := by
        simp [parseNat]
      rw [this, digitChar_toNat_sub n h]
    · rename_i h
      rw [parseNat_append_digit, ih (n / 10) (Nat.div_lt_self (by omega) (by omega)),
        digitChar_toNat_sub _ (Nat.mod_lt _ (by omega))]
      omega

theorem natStr_injective : Function.Injective natStr := by
  intro a b h
  have := congrArg parseNat h
  rwa [parseNat_natStr, parseNat_natStr] at this

/-! ## Prefix / substring helper lemmas -/

theorem isPrefixOf_self_append (a t : Str) : a.isPrefixOf (a ++ t) = true :=
  List.isPrefixOf_iff_prefix.mpr (List.prefix_append a t)

theorem take_append_of_le (k : Nat) (a t : Str) (h : k ≤ a.length) :
    (a ++ t).take k = a.take k := by
  rw [List.take_append_eq_append_take]
  have : k - a.length = 0 := by omega
  simp [this]

theorem isPrefixOf_append_false_of_take (p a t : Str) (k : Nat)
    (hka : k ≤ a.length) (hkp : k ≤ p.length) (hne : p.take k ≠ a.take k) :
    p.isPrefixOf (a ++ t) = false := by
  rw [← Bool.not_eq_true]
  intro hpre
  have hfix := List.isPrefixOf_iff_prefix.mp hpre
  have h1 : p.take k <+: (a ++ t).take k := List.IsPrefix.take hfix k
  have hlen1 : (p.take k).length = k := by
    rw [List.length_take]
    omega
  have hlen2 : ((a ++ t).take k).length = k := by
    rw [List.length_take, List.length_append]
    omega
  have heq : p.take k = (a ++ t).take k := List.IsPrefix.eq_of_length h1 (by omega)
  rw [take_append_of_le k a t hka] at heq
  exact hne heq

theorem takeWhile_append_of_all (p : Char → Bool) (a : Str) (b : Str)
    (ha : ∀ c ∈ a, p c = true) :
    List.takeWhile p (a ++ b) = a ++ List.takeWhile p b := by
  rw [List.takeWhile_append]
  have : List.takeWhile p a = a := List.takeWhile_eq_self_iff.mpr ha
  simp [this]

theorem takeWhile_cons_false (p : Char → Bool) (c : Char) (b : Str)
    (hc : p c = false) : List.takeWhile p (c :: b) = [] := by
  simp [List.takeWhile_cons, hc]

theorem dropWhile_append_of_all (p : Char → Bool) (a : Str) (b : Str)
    (ha : ∀ c ∈ a, p c = true) :
    List.dropWhile p (a ++ b) = List.dropWhile p b := by
  induction a with
  | nil => simp
  | cons c r ih =>
    have hc : p c = true := ha c (by simp)
    simp only [List.cons_append, List.dropWhile_cons, hc, if_true]
    exact ih (fun x hx => ha x (by simp [hx]))

/-! ## C9 -/

/-- C9 counterexample: for the nested path `presets[0].blocks[0]`, with the
positional key `preset:index:0` mapped to line 10 and the presets section
start mapped to line 20, and a first preset without a name, resolution
returns 20 — the positional key is never consulted, contradicting the
claimed try-positional-first order. -/
theorem nested_preset_path_skips_positional_key :
    getLineNumberFromValidationPath
        [(("preset:index:0".data), 10), (("schema:presets".data), 20)]
        (some { presets := some [{ name := none }] })
        (some ("presets[0].blocks[0]".data)) = some 20 ∧
    mapGetT [(("preset:index:0".data), 10), (("schema:presets".data), 20)]
        ("preset:index:0".data) = some 10 := by
  decide

theorem scanPresetBack_eq_findSome (lineMap : List (Str × Nat))
    (presets : List Preset) (i : Nat) :
    scanPresetBack lineMap presets i =
      (List.range (i + 1)).reverse.findSome? (presetNameLookupAt lineMap presets) := by
  induction i with
  | zero =>
    show scanPresetBack lineMap presets 0 = _
    rw [List.range_succ]
    cases h : presetNameLookupAt lineMap presets 0 <;>
      simp [scanPresetBack, List.findSome?, h]
  | succ k ih =>
    rw [List.range_succ]
    cases h : presetNameLookupAt lineMap presets (k + 1) <;>
      simp [scanPresetBack, List.findSome?, h, ih]

/-- The nested preset path, as the validator builds it. -/
theorem presetBlockPath_assoc (i j : Nat) :
    presetBlockPath i j =
      "presets[".data ++ (natStr i ++ ("].blocks[".data ++ (natStr j ++ "]".data))) := by
  simp [presetBlockPath, presetsPath, List.append_assoc]

theorem tryIdxAt_presetBlockPath (i j : Nat) :
    tryIdxAt ("presets[".data) (presetBlockPath i j) = some i := by
  rw [presetBlockPath_assoc]
  unfold tryIdxAt
  rw [isPrefixOf_self_append]
  simp only [if_true, List.drop_left]
  have htw : List.takeWhile Char.isDigit
      (natStr i ++ ("].blocks[".data ++ (natStr j ++ "]".data))) = natStr i := by
    rw [takeWhile_append_of_all _ _ _ (natStr_all_digit i)]
    have : ("].blocks[".data ++ (natStr j ++ "]".data)) =
        ']' :: (".blocks[".data ++ (natStr j ++ "]".data)) := rfl
    rw [this, takeWhile_cons_false _ _ _ (by decide), List.append_nil]
  rw [htw]
  simp only [List.isEmpty_eq_true, natStr_ne_nil i, if_false]
  have hdrop : (natStr i ++ ("].blocks[".data ++ (natStr j ++ "]".data))).drop
      (natStr i).length = "].blocks[".data ++ (natStr j ++ "]".data) :=
    List.drop_left _ _
  rw [hdrop]
  have : ("].blocks[".data ++ (natStr j ++ "]".data)) =
      ']' :: (".blocks[".data ++ (natStr j ++ "]".data)) := rfl
  rw [this]
  simp [parseNat_natStr]

theorem findIdxMatch_presetBlockPath (i j : Nat) :
    findIdxMatch ("presets[".data) (presetBlockPath i j) = some i := by
  have hcons : presetBlockPath i j =
      'p' :: ("resets[".data ++ (natStr i ++ ("].blocks[".data ++ (natStr j ++ "]".data)))) := by
    rw [presetBlockPath_assoc]
    rfl
  rw [hcons]
  rw [findIdxMatch]
  rw [← hcons, tryIdxAt_presetBlockPath]

theorem tryNestedAt_presetBlockPath (i j : Nat) :
    tryNestedAt (presetBlockPath i j) = true := by
  rw [presetBlockPath_assoc]
  unfold tryNestedAt
  rw [isPrefixOf_self_append]
  simp only [if_true, List.drop_left]
  have htw : List.takeWhile Char.isDigit
      (natStr i ++ ("].blocks[".data ++ (natStr j ++ "]".data))) = natStr i := by
    rw [takeWhile_append_of_all _ _ _ (natStr_all_digit i)]
    have : ("].blocks[".data ++ (natStr j ++ "]".data)) =
        ']' :: (".blocks[".data ++ (natStr j ++ "]".data)) := rfl
    rw [this, takeWhile_cons_false _ _ _ (by decide), List.append_nil]
  rw [htw]
  simp only [List.isEmpty_eq_true, natStr_ne_nil i, if_false]
  rw [List.drop_left]
  rw [isPrefixOf_self_append]
  simp only [if_true, List.drop_left]
  have htw2 : List.takeWhile Char.isDigit (natStr j ++ "]".data) = natStr j := by
    have hnil : List.takeWhile Char.isDigit ("]".data) = [] := rfl
    rw [takeWhile_append_of_all _ _ _ (natStr_all_digit j), hnil, List.append_nil]
  rw [htw2]
  simp only [List.isEmpty_eq_true, natStr_ne_nil j, if_false]
  rw [List.drop_left]
  rfl

theorem hasNestedPresetBlock_presetBlockPath (i j : Nat) :
    hasNestedPresetBlock (presetBlockPath i j) = true := by
  have hcons : presetBlockPath i j =
      'p' :: ("resets[".data ++ (natStr i ++ ("].blocks[".data ++ (natStr j ++ "]".data)))) := by
    rw [presetBlockPath_assoc]
    rfl
  rw [hcons, hasNestedPresetBlock, ← hcons, tryNestedAt_presetBlockPath]
  rfl

/-- C9 (amended): resolving a nested `presets[i].blocks[j]` path bypasses the
positional `preset:index:i` key and goes directly to the approximate preset
routine: it requires the presets-section-start marker, scans backward
`i, …, 0` for a resolvable preset name key, else returns the section-start
line, and stays unresolved when the marker (or the presets collection) is
missing. -/
theorem nested_preset_path_resolution (lineMap : List (Str × Nat))
    (schema : ShopifySchema) (presets : List Preset) (i j : Nat)
    (hps : schema.presets = some presets) :
    getLineNumberFromValidationPath lineMap (some schema) (some (presetBlockPath i j)) =
      nestedPresetResolutionSpec lineMap schema i := by
  have hempty : (presetBlockPath i j).isEmpty = false := by
    rw [presetBlockPath_assoc]
    rfl
  have hs1 : startsWithS (presetBlockPath i j) ("settings[".data) = false := by
    rw [presetBlockPath_assoc]
    exact isPrefixOf_append_false_of_take _ _ _ 1 (by decide) (by decide) (by decide)
  have hs2 : startsWithS (presetBlockPath i j) ("blocks[".data) = false := by
    rw [presetBlockPath_assoc]
    exact isPrefixOf_append_false_of_take _ _ _ 1 (by decide) (by decide) (by decide)
  have hs3 : startsWithS (presetBlockPath i j) ("presets[".data) = true := by
    rw [presetBlockPath_assoc]
    exact isPrefixOf_self_append _ _
  have hf := findIdxMatch_presetBlockPath i j
  have hn := hasNestedPresetBlock_presetBlockPath i j
  simp only [getLineNumberFromValidationPath, hempty, hs1, hs2, hs3,
    Bool.false_eq_true, if_false, if_true, hf, hps, hn]
  unfold nestedPresetResolutionSpec getApproximatePresetLine
  rw [hps]
  cases mapGetT lineMap ("schema:presets".data) with
  | none => rfl
  | some sectionStart => simp only [scanPresetBack_eq_findSome]

/-- Witness for C9 (amended) at a concrete map, schema and path. -/
theorem nested_preset_path_resolution_witness :
    getLineNumberFromValidationPath
        [(("preset:index:1".data), 7), (("schema:presets".data), 4),
         (("preset:P".data), 9)]
        (some { presets := some [{ name := some ("P".data) }, { name := none }] })
        (some (presetBlockPath 1 0)) =
      nestedPresetResolutionSpec
        [(("preset:index:1".data), 7), (("schema:presets".data), 4),
         (("preset:P".data), 9)]
        { presets := some [{ name := some ("P".data) }, { name := none }] } 1 :=
  nested_preset_path_resolution _ _ [{ name := some ("P".data) }, { name := none }] 1 0 rfl

/-! ## C5 -/

/-- C5 counterexample: `parseDocument`'s matcher does not tolerate the
trim-whitespace control hyphens — a document delimited by
`\x7b%- schema -%\x7d ... \x7b%- endschema -%\x7d` reports "No schema block
found". -/
theorem extract_rejects_trim_hyphens :
    extractSchemaBlock ("\x7b%- schema -%\x7d \x7b\x7d \x7b%- endschema -%\x7d".data) = none ∧
    parseDocument (fun _ => .error ("e".data)) ("f.liquid".data)
        ("\x7b%- schema -%\x7d \x7b\x7d \x7b%- endschema -%\x7d".data) =
      { schema := none, issues := [], originalError := some ("No schema block found".data) } := by
  constructor
  · decide
  · rfl

theorem matchKeywordCI_exact (key rest : Str) :
    matchKeywordCI (key.map Char.toLower) (key ++ rest) = some rest := by
  induction key with
  | nil => rfl
  | cons c k ih => simp [matchKeywordCI, ih]

theorem toLower_of_isWhitespace (c : Char) (h : c.isWhitespace = true) :
    c.toLower = c := by
  simp only [Char.isWhitespace, Bool.or_eq_true, decide_eq_true_eq] at h
  rcases h with ((rfl | rfl) | rfl) | rfl <;> decide

theorem head_not_ws_of_toLower_map (key : Str) (kw : Str) (c0 : Char) (k : Str)
    (hkey : key.map Char.toLower = kw) (hk : key = c0 :: k)
    (hhead : ∀ d, kw.head? = some d → d.isWhitespace = false) :
    c0.isWhitespace = false := by
  subst hk
  cases hb : c0.isWhitespace with
  | false => rfl
  | true =>
    have h1 : c0.toLower = c0 := toLower_of_isWhitespace c0 hb
    have h2 : kw.head? = some c0.toLower := by
      rw [← hkey]
      simp
    have h3 := hhead c0.toLower h2
    rw [h1] at h3
    rw [h3] at hb
    exact hb.symm

theorem matchOpenMarker_not_brace (c : Char) (h : ¬c = '\x7b') (t : Str) :
    matchOpenMarker (c :: t) = none := by
  unfold matchOpenMarker
  split
  · rename_i heq
    rw [List.cons.injEq] at heq
    exact absurd heq.1 h
  · rfl

theorem matchEndMarker_not_brace (c : Char) (h : ¬c = '\x7b') (t : Str) :
    matchEndMarker (c :: t) = none := by
  unfold matchEndMarker
  split
  · rename_i heq
    rw [List.cons.injEq] at heq
    exact absurd heq.1 h
  · rfl

theorem matchOpenMarker_cons (r : Str) :
    matchOpenMarker ('\x7b' :: '%' :: r) =
      (match matchKeywordCI ("schema".data) (r.dropWhile Char.isWhitespace) with
       | some r2 =>
         (match r2.dropWhile Char.isWhitespace with
          | '%' :: '\x7d' :: r3 => some r3
          | _ => none)
       | none => none) := rfl

theorem matchEndMarker_cons (r : Str) :
    matchEndMarker ('\x7b' :: '%' :: r) =
      (match matchKeywordCI ("endschema".data) (r.dropWhile Char.isWhitespace) with
       | some r2 =>
         (match r2.dropWhile Char.isWhitespace with
          | '%' :: '\x7d' :: r3 => some r3
          | _ => none)
       | none => none) := rfl

theorem matchOpenMarker_marker (w1 w2 key rest : Str)
    (hw1 : ∀ c ∈ w1, c.isWhitespace = true) (hw2 : ∀ c ∈ w2, c.isWhitespace = true)
    (hkey : key.map Char.toLower = "schema".data) :
    matchOpenMarker ('\x7b' :: '%' :: (w1 ++ (key ++ (w2 ++ ('%' :: '\x7d' :: rest)))))
      = some rest := by
  obtain ⟨c0, k, hk⟩ : ∃ c0 k, key = c0 :: k := by
    cases key with
    | nil => simp at hkey
    | cons a b => exact ⟨a, b, rfl⟩
  have hc0 : c0.isWhitespace = false := by
    refine head_not_ws_of_toLower_map key _ c0 k hkey hk ?_
    intro d hd
    have hds : 's' = d := Option.some.inj hd
    rw [← hds]
    rfl
  rw [matchOpenMarker_cons]
  have hdrop1 : List.dropWhile Char.isWhitespace
      (w1 ++ (key ++ (w2 ++ ('%' :: '\x7d' :: rest)))) =
      key ++ (w2 ++ ('%' :: '\x7d' :: rest)) := by
    rw [dropWhile_append_of_all _ _ _ hw1, hk, List.cons_append, List.dropWhile_cons, hc0]
    simp
  rw [hdrop1, ← hkey, matchKeywordCI_exact key (w2 ++ ('%' :: '\x7d' :: rest))]
  have hdrop2 : List.dropWhile Char.isWhitespace (w2 ++ ('%' :: '\x7d' :: rest)) =
      '%' :: '\x7d' :: rest := by
    rw [dropWhile_append_of_all _ _ _ hw2, List.dropWhile_cons]
    simp
  simp only [hdrop2]

theorem matchEndMarker_marker (w3 w4 ekey rest : Str)
    (hw3 : ∀ c ∈ w3, c.isWhitespace = true) (hw4 : ∀ c ∈ w4, c.isWhitespace = true)
    (hekey : ekey.map Char.toLower = "endschema".data) :
    matchEndMarker ('\x7b' :: '%' :: (w3 ++ (ekey ++ (w4 ++ ('%' :: '\x7d' :: rest)))))
      = some rest := by
  obtain ⟨c0, k, hk⟩ : ∃ c0 k, ekey = c0 :: k := by
    cases ekey with
    | nil => simp at hekey
    | cons a b => exact ⟨a, b, rfl⟩
  have hc0 : c0.isWhitespace = false := by
    refine head_not_ws_of_toLower_map ekey _ c0 k hekey hk ?_
    intro d hd
    have hds : 'e' = d := Option.some.inj hd
    rw [← hds]
    rfl
  rw [matchEndMarker_cons]
  have hdrop1 : List.dropWhile Char.isWhitespace
      (w3 ++ (ekey ++ (w4 ++ ('%' :: '\x7d' :: rest)))) =
      ekey ++ (w4 ++ ('%' :: '\x7d' :: rest)) := by
    rw [dropWhile_append_of_all _ _ _ hw3, hk, List.cons_append, List.dropWhile_cons, hc0]
    simp
  rw [hdrop1, ← hekey, matchKeywordCI_exact ekey (w4 ++ ('%' :: '\x7d' :: rest))]
  have hdrop2 : List.dropWhile Char.isWhitespace (w4 ++ ('%' :: '\x7d' :: rest)) =
      '%' :: '\x7d' :: rest := by
    rw [dropWhile_append_of_all _ _ _ hw4, List.dropWhile_cons]
    simp
  simp only [hdrop2]

theorem splitAtEndMarker_inner (inner tailPart : Str)
    (hinner : '\x7b' ∉ inner)
    (hmark : (matchEndMarker tailPart).isSome = true)
    (hcons : ∃ c t, tailPart = c :: t) :
    splitAtEndMarker (inner ++ tailPart) = some inner := by
  induction inner with
  | nil =>
    obtain ⟨c, t, rfl⟩ := hcons
    simp only [List.nil_append]
    rw [splitAtEndMarker]
    simp [hmark]
  | cons c r ih =>
    have hc : ¬c = '\x7b' := by
      intro hc
      exact hinner (by simp [hc])
    simp only [List.cons_append]
    rw [splitAtEndMarker]
    rw [matchEndMarker_not_brace c hc]
    simp only [Option.isSome_none, Bool.false_eq_true, if_false]
    rw [ih (fun hmem => hinner (by simp [hmem]))]

theorem extractSchemaBlock_skip_pre (pre s : Str) (hpre : '\x7b' ∉ pre)
    (hs : ∃ c t, s = c :: t) :
    extractSchemaBlock (pre ++ s) = extractSchemaBlock s := by
  induction pre with
  | nil => rfl
  | cons c r ih =>
    have hc : ¬c = '\x7b' := fun hc => hpre (by simp [hc])
    simp only [List.cons_append]
    rw [extractSchemaBlock]
    rw [matchOpenMarker_not_brace c hc]
    exact ih (fun hmem => hpre (by simp [hmem]))

/-- C5 (amended): `parseDocument`'s matcher tolerates only whitespace around
the (case-insensitive) `schema`/`endschema` keywords; the first such
whitespace-padded block is located and its inner text returned, while
markers carrying trim-control hyphens are not recognized (counterexample
above). -/
theorem extractSchemaBlock_finds_whitespace_markers
    (parse : Str → Except Str ShopifySchema)
    (pre w1 w2 w3 w4 key ekey inner post fileName : Str)
    (hpre : '\x7b' ∉ pre) (hinner : '\x7b' ∉ inner)
    (hw1 : ∀ c ∈ w1, c.isWhitespace = true) (hw2 : ∀ c ∈ w2, c.isWhitespace = true)
    (hw3 : ∀ c ∈ w3, c.isWhitespace = true) (hw4 : ∀ c ∈ w4, c.isWhitespace = true)
    (hkey : key.map Char.toLower = "schema".data)
    (hekey : ekey.map Char.toLower = "endschema".data) :
    extractSchemaBlock
        (pre ++ '\x7b' :: '%' :: (w1 ++ (key ++ (w2 ++ ('%' :: '\x7d' ::
          (inner ++ '\x7b' :: '%' :: (w3 ++ (ekey ++ (w4 ++ ('%' :: '\x7d' :: post)))))))))) =
      some inner ∧
    parseDocument parse fileName
        (pre ++ '\x7b' :: '%' :: (w1 ++ (key ++ (w2 ++ ('%' :: '\x7d' ::
          (inner ++ '\x7b' :: '%' :: (w3 ++ (ekey ++ (w4 ++ ('%' :: '\x7d' :: post)))))))))) ≠
      { schema := none, issues := [], originalError := some ("No schema block found".data) } := by
  have hext : extractSchemaBlock
      (pre ++ '\x7b' :: '%' :: (w1 ++ (key ++ (w2 ++ ('%' :: '\x7d' ::
        (inner ++ '\x7b' :: '%' :: (w3 ++ (ekey ++ (w4 ++ ('%' :: '\x7d' :: post)))))))))) =
      some inner := by
    have hom := matchOpenMarker_marker w1 w2 key
      (inner ++ '\x7b' :: '%' :: (w3 ++ (ekey ++ (w4 ++ ('%' :: '\x7d' :: post)))))
      hw1 hw2 hkey
    have hem : (matchEndMarker
        ('\x7b' :: '%' :: (w3 ++ (ekey ++ (w4 ++ ('%' :: '\x7d' :: post)))))).isSome = true := by
      rw [matchEndMarker_marker w3 w4 ekey post hw3 hw4 hekey]
      rfl
    have hsp := splitAtEndMarker_inner inner _ hinner hem ⟨_, _, rfl⟩
    rw [extractSchemaBlock_skip_pre _ _ hpre ⟨_, _, rfl⟩]
    rw [extractSchemaBlock]
    rw [hom]
    simp only [hsp]
  refine ⟨hext, ?_⟩
  intro hcontra
  have hsch := congrArg ParseResult.schema hcontra
  have hiss := congrArg ParseResult.issues hcontra
  rcases recoveryResultCases parse (trimS inner) with ⟨s, hs⟩ | ⟨h1, h2, h3⟩
  · unfold parseDocument at hsch
    rw [hext] at hsch
    simp [hs] at hsch
  · unfold parseDocument at hiss
    rw [hext] at hiss
    simp only [h1] at hiss
    exact h3 hiss

/-- Witness for C5 (amended) at a concrete document with uppercase keywords
and assorted whitespace. -/
theorem extractSchemaBlock_finds_whitespace_markers_witness :
    extractSchemaBlock c5doc = some (" 1 ".data) ∧
    parseDocument (fun _ => .error ("boom".data)) ("f.liquid".data) c5doc ≠
      ({ schema := none, issues := [], originalError := some ("No schema block found".data) } :
        ParseResult) := by
  have h := extractSchemaBlock_finds_whitespace_markers (fun _ => .error ("boom".data))
    ("x ".data) [' '] [' '] [' '] ([] : Str) ("SCHEMA".data) ("endSchema".data)
    (" 1 ".data) (" z".data) ("f.liquid".data)
    (by decide) (by decide) (by decide) (by decide) (by decide) (by decide)
    (by decide) (by decide)
  exact h

/-! ## C7 -/

theorem validateBlocksGo_append (xs ys : List Block) (idx : Nat) (seen : List Str) :
    validateBlocksGo idx seen (xs ++ ys) =
      (((validateBlocksGo idx seen xs).1.1 ++
        (validateBlocksGo (idx + xs.length) ((validateBlocksGo idx seen xs).2) ys).1.1,
        (validateBlocksGo idx seen xs).1.2 ++
        (validateBlocksGo (idx + xs.length) ((validateBlocksGo idx seen xs).2) ys).1.2),
       (validateBlocksGo (idx + xs.length) ((validateBlocksGo idx seen xs).2) ys).2) := by
  induction xs generalizing idx seen with
  | nil => simp [validateBlocksGo]
  | cons x xs ih =>
    have harith : idx + (xs.length + 1) = idx + 1 + xs.length := by omega
    simp only [List.cons_append, validateBlocksGo, List.length_cons, harith, List.append_eq]
    rw [ih]
    simp [List.append_assoc]

theorem validateBlocksGo_cons (x : Block) (xs : List Block) (idx : Nat) (seen : List Str) :
    validateBlocksGo idx seen (x :: xs) =
      (((blockStep idx seen x).1.1 ++
        (validateBlocksGo (idx + 1) ((blockStep idx seen x).2) xs).1.1,
        (blockStep idx seen x).1.2 ++
        (validateBlocksGo (idx + 1) ((blockStep idx seen x).2) xs).1.2),
       (validateBlocksGo (idx + 1) ((blockStep idx seen x).2) xs).2) := by
  simp [validateBlocksGo]

/-- C7: in the `blocks.forEach` decomposition of `validateBlocks`, an `@app`
block contributes zero errors whether or not it has a name; with no name it
contributes no name warning; with a (non-empty) name it contributes exactly
one warning about the name, attributed to its `blocks[i]` path. -/
theorem app_block_name_rules (A C : List Block) (b : Block)
    (htype : b.type = some ("@app".data)) :
    (validateBlocks (A ++ b :: C)).1 =
      (validateBlocksGo 0 [] A).1.1 ++
      ((blockStep A.length ((validateBlocksGo 0 [] A).2) b).1.1 ++
       (validateBlocksGo (A.length + 1) ((blockStep A.length ((validateBlocksGo 0 [] A).2) b).2) C).1.1) ∧
    (blockStep A.length ((validateBlocksGo 0 [] A).2) b).1.1 = [] ∧
    ((b.name = none ∨ b.name = some []) →
      (blockStep A.length ((validateBlocksGo 0 [] A).2) b).1.2.filter
        (fun w => w.message == ("Block type \"@app\" should not have a name property".data)) = []) ∧
    (∀ nm, b.name = some nm → nm ≠ [] →
      (blockStep A.length ((validateBlocksGo 0 [] A).2) b).1.2.filter
        (fun w => w.message == ("Block type \"@app\" should not have a name property".data)) =
      [appNameWarning A.length]) := by
  have hspecial : isSpecialBlockType b.type = true := by
    simp [isSpecialBlockType, htype]
  have htruthy : truthyS b.type = true := by
    rw [htype]
    decide
  refine ⟨?_, ?_, ?_, ?_⟩
  · show (validateBlocksGo 0 [] (A ++ b :: C)).1.1 = _
    rw [validateBlocksGo_append A (b :: C) 0 []]
    simp only [Nat.zero_add]
    rw [validateBlocksGo_cons]
  · cases hset : b.settings <;>
      simp +decide [blockStep, htype, htruthy, hspecial, hset]
  · intro hname
    have hnameF : truthyS b.name = false := by
      rcases hname with h | h <;> simp [truthyS, h]
    by_cases hdup : ((validateBlocksGo 0 [] A).2).contains ("@app".data) <;>
      cases hset : b.settings <;>
        simp +decide [blockStep, htype, htruthy, hspecial, hnameF, hdup, hset]
  · intro nm hname hnm
    have hnameT : truthyS b.name = true := by
      cases nm with
      | nil => exact absurd rfl hnm
      | cons c t => simp [truthyS, hname]
    by_cases hdup : ((validateBlocksGo 0 [] A).2).contains ("@app".data) <;>
      cases hset : b.settings <;>
        simp +decide [blockStep, htype, htruthy, hspecial, hnameT, hdup, hset, appNameWarning]

/-- Witness for C7 with one ordinary block before the `@app` block. -/
theorem app_block_name_rules_witness :
    (validateBlocks ([{ type := some ("foo".data), name := some ("Foo".data) }] ++
        { type := some ("@app".data), name := some ("X".data) } :: [])).1 =
      (validateBlocksGo 0 [] [{ type := some ("foo".data), name := some ("Foo".data) }]).1.1 ++
      ((blockStep 1 ((validateBlocksGo 0 [] [{ type := some ("foo".data), name := some ("Foo".data) }]).2)
          { type := some ("@app".data), name := some ("X".data) }).1.1 ++
       (validateBlocksGo 2 ((blockStep 1
          ((validateBlocksGo 0 [] [{ type := some ("foo".data), name := some ("Foo".data) }]).2)
          { type := some ("@app".data), name := some ("X".data) }).2) []).1.1) ∧
    (blockStep 1 ((validateBlocksGo 0 [] [{ type := some ("foo".data), name := some ("Foo".data) }]).2)
        { type := some ("@app".data), name := some ("X".data) }).1.1 = [] ∧
    (({ type := some ("@app".data), name := some ("X".data) } : Block).name = none ∨
      ({ type := some ("@app".data), name := some ("X".data) } : Block).name = some [] →
      (blockStep 1 ((validateBlocksGo 0 [] [{ type := some ("foo".data), name := some ("Foo".data) }]).2)
          { type := some ("@app".data), name := some ("X".data) }).1.2.filter
        (fun w => w.message == ("Block type \"@app\" should not have a name property".data)) = []) ∧
    (∀ nm, ({ type := some ("@app".data), name := some ("X".data) } : Block).name = some nm → nm ≠ [] →
      (blockStep 1 ((validateBlocksGo 0 [] [{ type := some ("foo".data), name := some ("Foo".data) }]).2)
          { type := some ("@app".data), name := some ("X".data) }).1.2.filter
        (fun w => w.message == ("Block type \"@app\" should not have a name property".data)) =
      [appNameWarning 1]) :=
  app_block_name_rules [{ type := some ("foo".data), name := some ("Foo".data) }] []
    { type := some ("@app".data), name := some ("X".data) } rfl

/-! ## C6 -/

theorem isPrefixOf_append_of_le (p a t : Str) (h : p.length ≤ a.length) :
    p.isPrefixOf (a ++ t) = p.isPrefixOf a := by
  cases hb : p.isPrefixOf a with
  | true =>
    exact List.isPrefixOf_iff_prefix.mpr
      ((List.isPrefixOf_iff_prefix.mp hb).trans (List.prefix_append a t))
  | false =>
    cases hb2 : p.isPrefixOf (a ++ t) with
    | false => rfl
    | true =>
      exfalso
      have hp := List.isPrefixOf_iff_prefix.mp hb2
      have : p = (a ++ t).take p.length := List.prefix_iff_eq_take.mp hp
      rw [take_append_of_le _ _ _ h] at this
      have : p <+: a := by
        rw [this]
        exact List.take_prefix _ _
      rw [List.isPrefixOf_iff_prefix.mpr this] at hb
      exact Bool.false_ne_true hb.symm

theorem isDupError_duplicateIdErr (v path : Str) :
    isDupError (duplicateIdErr v path) = true := by
  show ("Duplicate setting ID".data).isPrefixOf
    ("Duplicate setting ID: \"".data ++ v ++ "\"".data) = true
  rw [List.append_assoc, isPrefixOf_append_of_le _ _ _ (by decide)]
  decide

/-- A duplicate-identifier error message starts with the letter D. -/
theorem isDupError_head (e : ValidationError) (h : isDupError e = true) :
    e.message.head? = some ('D') := by
  unfold isDupError at h
  cases hm : e.message with
  | nil => rw [hm] at h; exact absurd h (by decide)
  | cons c t =>
    rw [hm] at h
    have hDc : ('D' == c) = true := by
      have hstep : (("Duplicate setting ID".data).isPrefixOf (c :: t)) =
          (('D' == c) && (("uplicate setting ID".data).isPrefixOf t)) := rfl
      rw [hstep] at h
      exact (Bool.and_eq_true_iff.mp h).1
    simp only [beq_iff_eq] at hDc
    rw [← hDc]
    rfl

theorem filter_dup_nil_of_heads (l : List ValidationError)
    (h : ∀ e ∈ l, e.message.head? ≠ some ('D')) :
    l.filter isDupError = [] := by
  rw [List.filter_eq_nil_iff]
  intro e he hd
  exact h e he (isDupError_head e hd)

theorem eq_of_mem_ite_singleton {α : Type} {e x : α} {c : Prop} [Decidable c]
    (h : e ∈ (if c then [x] else [])) : e = x := by
  split at h
  · simpa using h
  · simp at h

theorem append_head_ne {c d : Char} (r x : Str) (h : ¬(c = d)) :
    ((c :: r) ++ x).head? ≠ some d := by
  intro hc
  have hh : ((c :: r) ++ x).head? = some c := rfl
  rw [hh] at hc
  exact h (Option.some.inj hc)

theorem append2_head_ne {c d : Char} (r x y : Str) (h : ¬(c = d)) :
    (((c :: r) ++ x) ++ y).head? ≠ some d := by
  intro hc
  have hh : (((c :: r) ++ x) ++ y).head? = some c := rfl
  rw [hh] at hc
  exact h (Option.some.inj hc)

theorem cons_head_ne {c d : Char} (r : Str) (h : ¬(c = d)) :
    (c :: r).head? ≠ some d := by
  intro hc
  exact h (Option.some.inj hc)

/-- Every error produced by `validateVisibleIf` has a message that does not
start with the letter D. -/
theorem validateVisibleIf_errors_head (v path : Str) :
    ∀ e ∈ (validateVisibleIf v path).1, e.message.head? ≠ some ('D') := by
  intro e he
  unfold validateVisibleIf at he
  simp only at he
  rw [eq_of_mem_ite_singleton he]
  exact cons_head_ne _ (by decide)

/-- Every error produced by `validateSettingType` has a message that does
not start with the letter D (so none of them is a duplicate-id error). -/
theorem validateSettingType_errors_head (s : Setting) (path : Str) :
    ∀ e ∈ (validateSettingType s path).1, e.message.head? ≠ some ('D') := by
  intro e he
  unfold validateSettingType at he
  simp only [List.mem_append] at he
  rcases he with (he | he) | he
  · rw [eq_of_mem_ite_singleton he]
    cases hty : s.type <;>
      · show (List.head? _) ≠ some ('D')
        exact append2_head_ne _ _ _ (by decide)
  · split at he
    · -- range
      simp only [List.mem_append] at he
      rcases he with he | he
      · split at he
        · rw [List.mem_singleton.mp he]; exact cons_head_ne _ (by decide)
        · split at he
          · rw [List.mem_singleton.mp he]; exact cons_head_ne _ (by decide)
          · exact absurd he (List.not_mem_nil e)
      · split at he
        · rw [List.mem_singleton.mp he]; exact cons_head_ne _ (by decide)
        · exact absurd he (List.not_mem_nil e)
    · split at he
      · -- select / radio
        rename_i hsel
        split at he
        · rw [List.mem_singleton.mp he]
          rcases hsel with h | h <;>
            (rw [h]; exact append_head_ne _ _ (by decide))
        · exact absurd he (List.not_mem_nil e)
      · split at he
        · exact absurd he (List.not_mem_nil e)
        · split at he
          · exact absurd he (List.not_mem_nil e)
          · split at he
            · -- text_alignment
              split at he
              · rw [List.mem_singleton.mp he]; exact cons_head_ne _ (by decide)
              · exact absurd he (List.not_mem_nil e)
            · split at he
              · -- metaobject
                split at he
                · rw [List.mem_singleton.mp he]; exact cons_head_ne _ (by decide)
                · exact absurd he (List.not_mem_nil e)
              · split at he
                · -- collection_list / product_list
                  rename_i hcoll
                  split at he
                  · rw [List.mem_singleton.mp he]
                    rcases hcoll with h | h <;>
                      (rw [h]; exact append_head_ne _ _ (by decide))
                  · exact absurd he (List.not_mem_nil e)
                · split at he
                  · -- video_url
                    split at he
                    · simp only [List.mem_filterMap] at he
                      obtain ⟨p, hp, hpe⟩ := he
                      split at hpe
                      · rcases Option.some.inj hpe with rfl
                        exact append2_head_ne _ _ _ (by decide)
                      · exact absurd hpe (by simp)
                    · rw [List.mem_singleton.mp he]; exact cons_head_ne _ (by decide)
                    · exact absurd he (List.not_mem_nil e)
                  · exact absurd he (List.not_mem_nil e)
  · cases hv : s.visible_if with
    | none => simp only [hv] at he; exact absurd he (List.not_mem_nil e)
    | some v =>
      simp only [hv] at he
      split at he
      · exact validateVisibleIf_errors_head v path e he
      · exact absurd he (List.not_mem_nil e)

theorem isDupError_false (e : ValidationError) (h : e.message.head? ≠ some ('D')) :
    isDupError e = false := by
  cases hb : isDupError e with
  | false => rfl
  | true => exact absurd (isDupError_head e hb) h

theorem truthyS_some (o : Option Str) (h : truthyS o = true) :
    ∃ v, o = some v ∧ v ≠ [] := by
  cases o with
  | none => exact absurd h (by decide)
  | some v =>
    refine ⟨v, rfl, ?_⟩
    intro hv
    rw [hv] at h
    exact absurd h (by decide)

theorem contains_eq_decide_mem (l : List Str) (a : Str) :
    l.contains a = decide (a ∈ l) := List.elem_eq_mem a l

theorem settingStep_filter_dup (idx : Nat) (seen : List Str) (s : Setting) :
    (settingStep idx seen s).1.1.filter isDupError =
      (if eligibleSetting s && seen.contains (s.id.getD [])
       then [duplicateIdErr (s.id.getD []) (settingsPath idx)] else []) := by
  have hst := filter_dup_nil_of_heads _ (validateSettingType_errors_head s (settingsPath idx))
  have h1 : isDupError (typeRequiredErr (settingsPath idx)) = false :=
    isDupError_false _ (cons_head_ne _ (by decide))
  have h2 : isDupError (idRequiredErr (settingsPath idx)) = false :=
    isDupError_false _ (cons_head_ne _ (by decide))
  by_cases helig : (truthyS s.id && !isHeaderType s.type) = true
  · by_cases hcont : seen.contains (s.id.getD []) = true
    · simp [settingStep, List.filter_append, hst, helig, hcont, eligibleSetting,
        isDupError_duplicateIdErr, h1, h2, apply_ite (List.filter isDupError)]
    · rw [Bool.not_eq_true] at hcont
      simp [settingStep, List.filter_append, hst, helig, hcont, eligibleSetting,
        h1, h2, apply_ite (List.filter isDupError)]
      split <;> simp [isDupError_duplicateIdErr]
  · rw [Bool.not_eq_true] at helig
    simp [settingStep, List.filter_append, hst, helig, eligibleSetting,
      h1, h2, apply_ite (List.filter isDupError)]

theorem settingStep_seen (idx : Nat) (seen : List Str) (s : Setting) :
    (settingStep idx seen s).2 =
      (if eligibleSetting s && !seen.contains (s.id.getD [])
       then seen ++ [s.id.getD []] else seen) := by
  by_cases helig : (truthyS s.id && !isHeaderType s.type) = true
  · by_cases hcont : seen.contains (s.id.getD []) = true
    · simp [settingStep, helig, hcont, eligibleSetting]
    · rw [Bool.not_eq_true] at hcont
      simp [settingStep, helig, hcont, eligibleSetting]
  · rw [Bool.not_eq_true] at helig
    simp [settingStep, helig, eligibleSetting]

theorem validateSettingsGo_cons (s : Setting) (rest : List Setting)
    (idx : Nat) (seen : List Str) :
    validateSettingsGo idx seen (s :: rest) =
      (((settingStep idx seen s).1.1 ++
        (validateSettingsGo (idx + 1) ((settingStep idx seen s).2) rest).1.1,
        (settingStep idx seen s).1.2 ++
        (validateSettingsGo (idx + 1) ((settingStep idx seen s).2) rest).1.2),
       (validateSettingsGo (idx + 1) ((settingStep idx seen s).2) rest).2) := by
  simp [validateSettingsGo]

theorem validateSettingsGo_append (xs ys : List Setting) (idx : Nat) (seen : List Str) :
    validateSettingsGo idx seen (xs ++ ys) =
      (((validateSettingsGo idx seen xs).1.1 ++
        (validateSettingsGo (idx + xs.length) ((validateSettingsGo idx seen xs).2) ys).1.1,
        (validateSettingsGo idx seen xs).1.2 ++
        (validateSettingsGo (idx + xs.length) ((validateSettingsGo idx seen xs).2) ys).1.2),
       (validateSettingsGo (idx + xs.length) ((validateSettingsGo idx seen xs).2) ys).2) := by
  induction xs generalizing idx seen with
  | nil => simp [validateSettingsGo]
  | cons x xs ih =>
    have harith : idx + (xs.length + 1) = idx + 1 + xs.length := by omega
    simp only [List.cons_append, validateSettingsGo, List.length_cons, harith, List.append_eq]
    rw [ih]
    simp [List.append_assoc]

theorem eligIds_cons_eligible (s : Setting) (rest : List Setting) (iv : Str)
    (h : eligibleSetting s = true) (hid : s.id = some iv) :
    eligIds (s :: rest) = iv :: eligIds rest := by
  simp [eligIds, List.filterMap_cons, h, hid]

theorem eligIds_cons_not (s : Setting) (rest : List Setting)
    (h : eligibleSetting s = false) :
    eligIds (s :: rest) = eligIds rest := by
  simp [eligIds, List.filterMap_cons, h]

/-- On a segment whose eligible identifiers are fresh and duplicate-free, the
settings loop produces no duplicate-identifier errors and extends the seen
set by exactly those identifiers, in order. -/
theorem validateSettingsGo_clean (xs : List Setting) :
    ∀ (idx : Nat) (seen : List Str),
      (∀ w ∈ eligIds xs, w ∉ seen) → (eligIds xs).Nodup →
      ((validateSettingsGo idx seen xs).1.1.filter isDupError = [] ∧
       (validateSettingsGo idx seen xs).2 = seen ++ eligIds xs) := by
  induction xs with
  | nil => intro idx seen _ _; constructor <;> simp [validateSettingsGo, eligIds]
  | cons s rest ih =>
    intro idx seen hdisj hnd
    by_cases helig : eligibleSetting s = true
    · obtain ⟨iv, hid, hiv⟩ := truthyS_some s.id (Bool.and_eq_true_iff.mp helig).1
      have hgd : s.id.getD [] = iv := by rw [hid]; rfl
      have hecons : eligIds (s :: rest) = iv :: eligIds rest :=
        eligIds_cons_eligible s rest iv helig hid
      rw [hecons] at hdisj hnd
      have hivseen : iv ∉ seen := hdisj iv (by simp)
      have hcont : seen.contains iv = false := by
        rw [contains_eq_decide_mem]
        exact decide_eq_false hivseen
      have hstep_f : (settingStep idx seen s).1.1.filter isDupError = [] := by
        rw [settingStep_filter_dup, hgd, hcont]
        simp
      have hstep_s : (settingStep idx seen s).2 = seen ++ [iv] := by
        rw [settingStep_seen, hgd, hcont, helig]
        simp
      have hnd' : (eligIds rest).Nodup := (List.nodup_cons.mp hnd).2
      have hivrest : iv ∉ eligIds rest := (List.nodup_cons.mp hnd).1
      have hdisj' : ∀ w ∈ eligIds rest, w ∉ seen ++ [iv] := by
        intro w hw hmem
        rcases List.mem_append.mp hmem with hm | hm
        · exact hdisj w (by simp [hw]) hm
        · rcases List.mem_singleton.mp hm with rfl
          exact hivrest hw
      obtain ⟨ihf, ihs⟩ := ih (idx + 1) (seen ++ [iv]) hdisj' hnd'
      rw [validateSettingsGo_cons]
      constructor
      · simp only [List.filter_append, hstep_f, hstep_s, ihf, List.nil_append]
      · simp only [hstep_s, ihs, hecons, List.append_assoc, List.singleton_append]
    · rw [Bool.not_eq_true] at helig
      have hecons : eligIds (s :: rest) = eligIds rest := eligIds_cons_not s rest helig
      rw [hecons] at hdisj hnd
      have hstep_f : (settingStep idx seen s).1.1.filter isDupError = [] := by
        rw [settingStep_filter_dup, helig]
        simp
      have hstep_s : (settingStep idx seen s).2 = seen := by
        rw [settingStep_seen, helig]
        simp
      obtain ⟨ihf, ihs⟩ := ih (idx + 1) seen hdisj hnd
      rw [validateSettingsGo_cons]
      constructor
      · simp only [List.filter_append, hstep_f, hstep_s, ihf, List.nil_append]
      · simp only [hstep_s, ihs, hecons]

theorem blockStep_filter_dup (idx : Nat) (seen : List Str) (b : Block)
    (h : ∀ ss, b.settings = some ss → (eligIds ss).Nodup) :
    (blockStep idx seen b).1.1.filter isDupError = [] := by
  have hb1 : isDupError { message := "Block type is required".data, path := some (blocksPath idx) : ValidationError } = false :=
    isDupError_false _ (cons_head_ne _ (by decide))
  have hb2 : isDupError { message := "Block name is required".data, path := some (blocksPath idx) : ValidationError } = false :=
    isDupError_false _ (cons_head_ne _ (by decide))
  cases hset : b.settings with
  | none =>
    simp [blockStep, List.filter_append, apply_ite (List.filter isDupError),
      hset, hb1, hb2]
  | some ss =>
    have hclean := (validateSettingsGo_clean ss 0 [] (by intro w _ hw; simp at hw)
      (h ss hset)).1
    by_cases hsp : isSpecialBlockType b.type = true
    · simp [blockStep, List.filter_append, apply_ite (List.filter isDupError),
        hset, hsp, hb1, hb2]
    · rw [Bool.not_eq_true] at hsp
      simp [blockStep, List.filter_append, apply_ite (List.filter isDupError),
        hset, hsp, hb1, hb2, validateSettings, hclean]

theorem validateBlocksGo_filter_dup (bs : List Block) :
    ∀ (idx : Nat) (seen : List Str),
      (∀ b ∈ bs, ∀ ss, b.settings = some ss → (eligIds ss).Nodup) →
      (validateBlocksGo idx seen bs).1.1.filter isDupError = [] := by
  induction bs with
  | nil => intro idx seen _; simp [validateBlocksGo]
  | cons b rest ih =>
    intro idx seen hb
    rw [validateBlocksGo_cons]
    simp only [List.filter_append]
    rw [blockStep_filter_dup idx seen b (hb b (by simp)),
      ih (idx + 1) _ (fun x hx => hb x (by simp [hx]))]
    rfl

/-- C6: a settings collection whose only repeated eligible identifier is `v`,
shared by the two entries `s1` (first) and `s2` (second), yields exactly one
duplicate-identifier error, attributed to the second occurrence's path; and
uniqueness scopes are independent: a top-level settings collection and the
nested settings collections of blocks are each checked with a fresh seen-set,
so duplicate-free collections produce no duplicate error even when they share
identifiers with each other. -/
theorem duplicate_identifier_rules
    (A B C : List Setting) (s1 s2 : Setting) (v : Str)
    (h1 : eligibleSetting s1 = true) (h2 : eligibleSetting s2 = true)
    (hid1 : s1.id = some v) (hid2 : s2.id = some v)
    (hnd : ((eligIds A ++ eligIds B) ++ eligIds C).Nodup)
    (hvA : v ∉ eligIds A) (hvB : v ∉ eligIds B) (hvC : v ∉ eligIds C)
    (S1 : List Setting) (bs : List Block)
    (hS1 : (eligIds S1).Nodup)
    (hbs : ∀ b ∈ bs, ∀ ss, b.settings = some ss → (eligIds ss).Nodup) :
    (validateSettings (A ++ s1 :: (B ++ s2 :: C))).1.filter isDupError =
      [duplicateIdErr v (settingsPath (A.length + 1 + B.length))] ∧
    (validateSettings S1).1.filter isDupError = [] ∧
    (validateBlocks bs).1.filter isDupError = [] := by
  obtain ⟨hndAB, hndC, hdisjABC⟩ := List.nodup_append.mp hnd
  obtain ⟨hndA, hndB, hdisjAB⟩ := List.nodup_append.mp hndAB
  refine ⟨?_, ?_, ?_⟩
  · obtain ⟨fA, sA⟩ := validateSettingsGo_clean A 0 []
      (by intro w _ hw; simp at hw) hndA
    have sA2 : (validateSettingsGo 0 [] A).2 = eligIds A := by simpa using sA
    have hgd1 : s1.id.getD [] = v := by rw [hid1]; rfl
    have hcont1 : (eligIds A).contains v = false := by
      rw [contains_eq_decide_mem]
      exact decide_eq_false hvA
    have f1 : (settingStep A.length (eligIds A) s1).1.1.filter isDupError = [] := by
      rw [settingStep_filter_dup, hgd1, hcont1]
      simp
    have s1s : (settingStep A.length (eligIds A) s1).2 = eligIds A ++ [v] := by
      rw [settingStep_seen, hgd1, hcont1, h1]
      simp
    have hdisjB : ∀ w ∈ eligIds B, w ∉ (eligIds A ++ [v]) := by
      intro w hw hmem
      rcases List.mem_append.mp hmem with hm | hm
      · exact hdisjAB hm hw
      · rcases List.mem_singleton.mp hm with rfl
        exact hvB hw
    obtain ⟨fB, sB⟩ := validateSettingsGo_clean B (A.length + 1) (eligIds A ++ [v])
      hdisjB hndB
    have hvmem : v ∈ (eligIds A ++ [v]) ++ eligIds B := by simp
    have hcont2 : ((eligIds A ++ [v]) ++ eligIds B).contains v = true := by
      rw [contains_eq_decide_mem]
      exact decide_eq_true hvmem
    have hgd2 : s2.id.getD [] = v := by rw [hid2]; rfl
    have f2 : (settingStep (A.length + 1 + B.length) ((eligIds A ++ [v]) ++ eligIds B)
        s2).1.1.filter isDupError =
        [duplicateIdErr v (settingsPath (A.length + 1 + B.length))] := by
      rw [settingStep_filter_dup, hgd2, hcont2, h2]
      simp
    have s2s : (settingStep (A.length + 1 + B.length) ((eligIds A ++ [v]) ++ eligIds B)
        s2).2 = (eligIds A ++ [v]) ++ eligIds B := by
      rw [settingStep_seen, hgd2, hcont2]
      simp
    have hdisjC : ∀ w ∈ eligIds C, w ∉ (eligIds A ++ [v]) ++ eligIds B := by
      intro w hw hmem
      rcases List.mem_append.mp hmem with hm | hm
      · rcases List.mem_append.mp hm with hm2 | hm2
        · exact hdisjABC (List.mem_append.mpr (Or.inl hm2)) hw
        · rcases List.mem_singleton.mp hm2 with rfl
          exact hvC hw
      · exact hdisjABC (List.mem_append.mpr (Or.inr hm)) hw
    have fC := (validateSettingsGo_clean C (A.length + 1 + B.length + 1)
      ((eligIds A ++ [v]) ++ eligIds B) hdisjC hndC).1
    show (validateSettingsGo 0 [] (A ++ s1 :: (B ++ s2 :: C))).1.1.filter isDupError = _
    rw [validateSettingsGo_append A (s1 :: (B ++ s2 :: C)) 0 []]
    simp only [Nat.zero_add, sA2]
    rw [validateSettingsGo_cons]
    simp only [s1s]
    rw [validateSettingsGo_append B (s2 :: C) (A.length + 1) (eligIds A ++ [v])]
    simp only [sB]
    rw [validateSettingsGo_cons]
    simp only [s2s]
    simp only [List.filter_append, fA, f1, fB, f2, fC, List.nil_append,
      List.append_nil]
  · exact (validateSettingsGo_clean S1 0 [] (by intro w _ hw; simp at hw) hS1).1
  · exact validateBlocksGo_filter_dup bs 0 [] hbs

/-- Witness for C6: two settings sharing id `title` in one collection; the
same id used at top level and inside a block without complaint. -/
theorem duplicate_identifier_rules_witness :
    (validateSettings ([] ++ { type := some ("text".data), id := some ("title".data) } ::
        ([] ++ { type := some ("text".data), id := some ("title".data) } :: []))).1.filter
      isDupError = [duplicateIdErr ("title".data) (settingsPath (List.length ([] : List Setting) + 1 + List.length ([] : List Setting)))] ∧
    (validateSettings [{ type := some ("text".data), id := some ("title".data) }]).1.filter
      isDupError = [] ∧
    (validateBlocks [{ type := some ("foo".data), name := some ("Foo".data),
                       settings := some [{ type := some ("text".data), id := some ("title".data) }] }]).1.filter
      isDupError = [] :=
  duplicate_identifier_rules [] [] []
    { type := some ("text".data), id := some ("title".data) }
    { type := some ("text".data), id := some ("title".data) }
    ("title".data) (by decide) (by decide) rfl rfl (by decide)
    (by decide) (by decide) (by decide)
    [{ type := some ("text".data), id := some ("title".data) }]
    [{ type := some ("foo".data), name := some ("Foo".data),
       settings := some [{ type := some ("text".data), id := some ("title".data) }] : Block }]
    (by decide)
    (by intro b hb ss hss
        rcases List.mem_singleton.mp hb with rfl
        rcases Option.some.inj hss.symm with rfl
        decide)

/-! ## C8 -/

theorem filter_flatten_eq {α} (p : α → Bool) (L : List (List α)) :
    L.flatten.filter p = (L.map (List.filter p)).flatten := by
  induction L with
  | nil => rfl
  | cons x xs ih => simp [List.filter_append, ih]

theorem enum_eq_enumFrom {α} (l : List α) : l.enum = List.enumFrom 0 l := rfl

theorem isUnknownRefWarn_unknownBlockRefWarn (t : Option Str) (i j : Nat) :
    isUnknownRefWarn (unknownBlockRefWarn t i j) = true := by
  show ("Preset block references".data).isPrefixOf
    ("Preset block references unknown block type: \"".data ++ showOpt t ++ "\"".data) = true
  rw [List.append_assoc, isPrefixOf_append_of_le _ _ _ (by decide)]
  decide

theorem isUnknownRefWarn_unknownSettingIdWarn (k : Str) (i : Nat) :
    isUnknownRefWarn (unknownSettingIdWarn k i) = false := by
  show ("Preset block references".data).isPrefixOf
    ("Preset references unknown setting ID: \"".data ++ k ++ "\"".data) = false
  rw [List.append_assoc]
  exact isPrefixOf_append_false_of_take _ _ _ 8 (by decide) (by decide) (by decide)

theorem refAt_of_not_ref (i j : Nat) (w : ValidationWarning)
    (h : isUnknownRefWarn w = false) : refAt i j w = false := by
  simp [refAt, h]

theorem digits_delim_inj (a : Str) : ∀ (b x y : Str),
    (∀ c ∈ a, c.isDigit = true) → (∀ c ∈ b, c.isDigit = true) →
    a ++ ']' :: x = b ++ ']' :: y → a = b ∧ x = y := by
  induction a with
  | nil =>
    intro b x y _ hb h
    cases b with
    | nil => simpa using h
    | cons d b' =>
      exfalso
      simp only [List.nil_append, List.cons_append, List.cons.injEq] at h
      have hd := hb d (by simp)
      rw [← h.1] at hd
      exact absurd hd (by decide)
  | cons c a' ih =>
    intro b x y ha hb h
    cases b with
    | nil =>
      exfalso
      simp only [List.cons_append, List.nil_append, List.cons.injEq] at h
      have hc := ha c (by simp)
      rw [h.1] at hc
      exact absurd hc (by decide)
    | cons d b' =>
      simp only [List.cons_append, List.cons.injEq] at h
      obtain ⟨rfl, htail⟩ := h
      obtain ⟨h1, h2⟩ := ih b' x y (fun e he => ha e (by simp [he]))
        (fun e he => hb e (by simp [he])) htail
      exact ⟨by rw [h1], h2⟩

theorem presetBlockPath_inj (i j i' j' : Nat)
    (h : presetBlockPath i j = presetBlockPath i' j') : i = i' ∧ j = j' := by
  rw [presetBlockPath_assoc, presetBlockPath_assoc] at h
  have h1 := List.append_cancel_left h
  have e1 : ("].blocks[".data : Str) = ']' :: ".blocks[".data := rfl
  rw [e1, List.cons_append] at h1
  obtain ⟨hi, hx⟩ := digits_delim_inj (natStr i) (natStr i') _ _
    (natStr_all_digit i) (natStr_all_digit i') h1
  have h2 := List.append_cancel_left hx
  have e2 : ("]".data : Str) = ']' :: [] := rfl
  rw [e2] at h2
  obtain ⟨hj, _⟩ := digits_delim_inj (natStr j) (natStr j') [] []
    (natStr_all_digit j) (natStr_all_digit j') h2
  exact ⟨natStr_injective hi, natStr_injective hj⟩

theorem refAt_warn_ne (t : Option Str) (i j i0 j0 : Nat) (h : ¬(i = i0 ∧ j = j0)) :
    refAt i0 j0 (unknownBlockRefWarn t i j) = false := by
  show (isUnknownRefWarn (unknownBlockRefWarn t i j) &&
    ((unknownBlockRefWarn t i j).path == some (presetBlockPath i0 j0))) = false
  rw [isUnknownRefWarn_unknownBlockRefWarn, Bool.true_and]
  show (some (presetBlockPath i j) == some (presetBlockPath i0 j0)) = false
  rw [beq_eq_false_iff_ne]
  intro he
  exact h (presetBlockPath_inj i j i0 j0 (Option.some.inj he))

theorem refAt_warn_self (t : Option Str) (i j : Nat) :
    refAt i j (unknownBlockRefWarn t i j) = true := by
  show (isUnknownRefWarn (unknownBlockRefWarn t i j) &&
    ((unknownBlockRefWarn t i j).path == some (presetBlockPath i j))) = true
  rw [isUnknownRefWarn_unknownBlockRefWarn, Bool.true_and]
  show (some (presetBlockPath i j) == some (presetBlockPath i j)) = true
  exact beq_self_eq_true _

theorem mem_presetKeyWarns (schema : ShopifySchema) (i : Nat) (p : Preset)
    (w : ValidationWarning) (hw : w ∈ presetKeyWarns schema i p) :
    ∃ k, w = unknownSettingIdWarn k i := by
  unfold presetKeyWarns at hw
  rcases hps : p.settings with _ | keys <;> rcases hss : schema.settings with _ | ss <;>
    rw [hps, hss] at hw <;>
    simp only [List.mem_filterMap, List.not_mem_nil] at hw
  obtain ⟨k, _, hfk⟩ := hw
  split at hfk
  · exact ⟨k, (Option.some.inj hfk).symm⟩
  · exact Option.noConfusion hfk

theorem mem_presetBlockWarns (schema : ShopifySchema) (i : Nat) (p : Preset)
    (w : ValidationWarning) (hw : w ∈ presetBlockWarns schema i p) :
    ∃ bs pbs, schema.blocks = some bs ∧ p.blocks = some pbs ∧
      (bs.any (fun b => b.type = some ("@app".data)) ||
        bs.any (fun b => b.type = some ("@theme".data))) = false ∧
      ∃ q ∈ List.enumFrom 0 pbs,
        ((bs.map (fun b => b.type)).contains q.2.type) = false ∧
        w = unknownBlockRefWarn q.2.type i q.1 := by
  unfold presetBlockWarns at hw
  rcases hpb : p.blocks with _ | pbs <;> rcases hbs : schema.blocks with _ | bs <;>
    rw [hpb, hbs] at hw <;>
    simp only [enum_eq_enumFrom, List.mem_flatten, List.mem_map, List.not_mem_nil] at hw
  obtain ⟨l, ⟨q, hq, rfl⟩, hwl⟩ := hw
  unfold presetBlockRefCheck at hwl
  split at hwl
  · exact absurd hwl (by simp)
  · split at hwl
    · rcases List.mem_singleton.mp hwl with rfl
      refine ⟨bs, pbs, rfl, rfl, ?_, q, hq, ?_, rfl⟩
      · rename_i hacc _
        simpa using hacc
      · rename_i hcon
        simpa using hcon
    · exact absurd hwl (by simp)

theorem presetStep_snd (schema : ShopifySchema) (i : Nat) (p : Preset) :
    (presetStep schema i p).2 =
      presetKeyWarns schema i p ++ presetBlockWarns schema i p := rfl

theorem presetKeyWarns_filter_refAt (schema : ShopifySchema) (i i0 j0 : Nat) (p : Preset) :
    (presetKeyWarns schema i p).filter (refAt i0 j0) = [] := by
  rw [List.filter_eq_nil_iff]
  intro w hw
  obtain ⟨k, rfl⟩ := mem_presetKeyWarns _ _ _ _ hw
  rw [refAt_of_not_ref _ _ _ (isUnknownRefWarn_unknownSettingIdWarn k i)]
  simp

theorem presetStep_filter_refAt_nil (schema : ShopifySchema) (i i0 j0 : Nat) (p : Preset)
    (hne : i ≠ i0) :
    ((presetStep schema i p).2).filter (refAt i0 j0) = [] := by
  rw [presetStep_snd, List.filter_append, presetKeyWarns_filter_refAt]
  have h2 : (presetBlockWarns schema i p).filter (refAt i0 j0) = [] := by
    rw [List.filter_eq_nil_iff]
    intro w hw
    obtain ⟨bs, pbs, _, _, _, q, hq, _, rfl⟩ := mem_presetBlockWarns _ _ _ _ hw
    rw [refAt_warn_ne _ _ _ _ _ (fun hc => hne hc.1)]
    simp
  rw [h2]
  rfl

theorem presetStep_filter_isRef_nil (schema : ShopifySchema) (bs : List Block)
    (i : Nat) (p : Preset) (hbs : schema.blocks = some bs)
    (hres : (bs.any (fun b => b.type = some ("@app".data)) ||
      bs.any (fun b => b.type = some ("@theme".data))) = true) :
    ((presetStep schema i p).2).filter isUnknownRefWarn = [] := by
  rw [presetStep_snd, List.filter_append]
  have h1 : (presetKeyWarns schema i p).filter isUnknownRefWarn = [] := by
    rw [List.filter_eq_nil_iff]
    intro w hw
    obtain ⟨k, rfl⟩ := mem_presetKeyWarns _ _ _ _ hw
    rw [isUnknownRefWarn_unknownSettingIdWarn]
    simp
  have h2 : (presetBlockWarns schema i p).filter isUnknownRefWarn = [] := by
    rw [List.filter_eq_nil_iff]
    intro w hw
    obtain ⟨bs', pbs, hbs', _, hacc, _, _, _, _⟩ := mem_presetBlockWarns _ _ _ _ hw
    rw [hbs] at hbs'
    obtain rfl := Option.some.inj hbs'
    rw [hacc] at hres
    exact absurd hres (by simp)
  rw [h1, h2]
  rfl

theorem refChecks_filter_nil (vt : List (Option Str)) (acc : Bool) (i i0 j0 s : Nat)
    (L : List PresetBlock) (h : ∀ q ∈ List.enumFrom s L, ¬(i = i0 ∧ q.1 = j0)) :
    (((List.enumFrom s L).map
      (fun q => presetBlockRefCheck vt acc i q.1 q.2)).flatten).filter (refAt i0 j0) = [] := by
  rw [filter_flatten_eq, List.flatten_eq_nil_iff]
  intro l hl
  rw [List.map_map, List.mem_map] at hl
  obtain ⟨q, hq, rfl⟩ := hl
  show (presetBlockRefCheck vt acc i q.1 q.2).filter (refAt i0 j0) = []
  unfold presetBlockRefCheck
  split
  · rfl
  · split
    · rw [List.filter_eq_nil_iff]
      intro w hw
      rcases List.mem_singleton.mp hw with rfl
      rw [refAt_warn_ne _ _ _ _ _ (h q hq)]
      simp
    · rfl

theorem refChecks_filter_self (vt : List (Option Str)) (i : Nat)
    (X Y : List PresetBlock) (pb : PresetBlock)
    (hc : vt.contains pb.type = false) :
    (((List.enumFrom 0 (X ++ pb :: Y)).map
      (fun q => presetBlockRefCheck vt false i q.1 q.2)).flatten).filter
        (refAt i X.length) = [unknownBlockRefWarn pb.type i X.length] := by
  rw [List.enumFrom_append, List.enumFrom_cons]
  simp only [List.map_append, List.map_cons, List.flatten_append, List.flatten_cons,
    List.filter_append, Nat.zero_add]
  have hXnil : ∀ q ∈ List.enumFrom 0 X, ¬(i = i ∧ q.1 = X.length) := by
    intro q hq hcon
    have hb := (List.mem_enumFrom hq).2.1
    omega
  have hYnil : ∀ q ∈ List.enumFrom (X.length + 1) Y, ¬(i = i ∧ q.1 = X.length) := by
    intro q hq hcon
    have hb := (List.mem_enumFrom hq).1
    omega
  rw [refChecks_filter_nil vt false i i X.length 0 X hXnil,
    refChecks_filter_nil vt false i i X.length (X.length + 1) Y hYnil]
  have hc' : ¬(pb.type ∈ vt) := by simpa using hc
  simp [presetBlockRefCheck, hc', refAt_warn_self]

theorem presetStep_filter_refAt_self (schema : ShopifySchema) (bs : List Block)
    (i : Nat) (p : Preset) (X Y : List PresetBlock) (pb : PresetBlock)
    (hbs : schema.blocks = some bs)
    (hacc : (bs.any (fun b => b.type = some ("@app".data)) ||
      bs.any (fun b => b.type = some ("@theme".data))) = false)
    (hpb : p.blocks = some (X ++ pb :: Y))
    (hc : ((bs.map (fun b => b.type)).contains pb.type) = false) :
    ((presetStep schema i p).2).filter (refAt i X.length) =
      [unknownBlockRefWarn pb.type i X.length] := by
  rw [presetStep_snd, List.filter_append, presetKeyWarns_filter_refAt, List.nil_append]
  unfold presetBlockWarns
  rw [hpb, hbs]
  simp only [hacc, enum_eq_enumFrom]
  exact refChecks_filter_self _ _ _ _ _ hc

theorem validatePresets_warnings (schema : ShopifySchema) (presets : List Preset)
    (hp : schema.presets = some presets) (hne : presets.isEmpty = false) :
    (validatePresets schema).2 =
      ((List.enumFrom 0 presets).map (fun q => (presetStep schema q.1 q.2).2)).flatten := by
  unfold validatePresets
  rw [hp]
  simp only [hne, Bool.false_eq_true, if_false]
  rw [List.map_map, enum_eq_enumFrom]
  rfl

/-- C8: preset block-reference leniency.  With the schema's blocks collection
containing a reserved dynamic marker block (`@app` or `@theme`), `validatePresets`
emits no unknown-block-type warning at all; with no reserved marker block, a
preset block reference whose type is absent from the blocks collection yields
exactly one unknown-block-type warning, attributed to that reference's
`presets[i].blocks[j]` path. -/
theorem preset_block_reference_leniency (schema : ShopifySchema) (bs : List Block)
    (P Q : List Preset) (p : Preset) (X Y : List PresetBlock) (pb : PresetBlock)
    (hbs : schema.blocks = some bs) :
    ((∃ b ∈ bs, isSpecialBlockType b.type = true) →
      ((validatePresets schema).2).filter isUnknownRefWarn = []) ∧
    ((∀ b ∈ bs, isSpecialBlockType b.type = false) →
      schema.presets = some (P ++ p :: Q) →
      p.blocks = some (X ++ pb :: Y) →
      ((bs.map (fun b => b.type)).contains pb.type) = false →
      ((validatePresets schema).2).filter (refAt P.length X.length) =
        [unknownBlockRefWarn pb.type P.length X.length]) := by
  constructor
  · intro hresx
    obtain ⟨b0, hb0m, hb0⟩ := hresx
    have hb0' : b0.type = some ("@app".data) ∨ b0.type = some ("@theme".data) := by
      simpa [isSpecialBlockType] using hb0
    have hres : (bs.any (fun b => b.type = some ("@app".data)) ||
        bs.any (fun b => b.type = some ("@theme".data))) = true := by
      rw [Bool.or_eq_true]
      rcases hb0' with h | h
      · exact Or.inl (List.any_eq_true.mpr ⟨b0, hb0m, by simp [h]⟩)
      · exact Or.inr (List.any_eq_true.mpr ⟨b0, hb0m, by simp [h]⟩)
    rcases hp : schema.presets with _ | presets
    · unfold validatePresets
      rw [hp]
      show List.filter isUnknownRefWarn [noPresetsWarn] = []
      decide
    · rcases hemp : presets.isEmpty with _ | _
      · rw [validatePresets_warnings schema presets hp hemp]
        rw [filter_flatten_eq, List.flatten_eq_nil_iff]
        intro l hl
        rw [List.map_map, List.mem_map] at hl
        obtain ⟨q, hq, rfl⟩ := hl
        exact presetStep_filter_isRef_nil schema bs q.1 q.2 hbs hres
      · unfold validatePresets
        rw [hp]
        simp only [hemp, if_true]
        show List.filter isUnknownRefWarn [noPresetsWarn] = []
        decide
  · intro hnores hp hpb hc
    have hApp : bs.any (fun b => b.type = some ("@app".data)) = false := by
      rw [List.any_eq_false]
      intro b hb
      have hs := hnores b hb
      simp [isSpecialBlockType] at hs
      simp [hs.1]
    have hTheme : bs.any (fun b => b.type = some ("@theme".data)) = false := by
      rw [List.any_eq_false]
      intro b hb
      have hs := hnores b hb
      simp [isSpecialBlockType] at hs
      simp [hs.2]
    have hacc : (bs.any (fun b => b.type = some ("@app".data)) ||
        bs.any (fun b => b.type = some ("@theme".data))) = false := by
      rw [hApp, hTheme]
      rfl
    have hne' : (P ++ p :: Q).isEmpty = false := by simp
    rw [validatePresets_warnings schema _ hp hne']
    rw [List.enumFrom_append, List.enumFrom_cons, List.map_append, List.map_cons,
      List.flatten_append, List.flatten_cons, List.filter_append, List.filter_append,
      Nat.zero_add]
    have hP : (((List.enumFrom 0 P).map
        (fun q => (presetStep schema q.1 q.2).2)).flatten).filter
          (refAt P.length X.length) = [] := by
      rw [filter_flatten_eq, List.flatten_eq_nil_iff]
      intro l hl
      rw [List.map_map, List.mem_map] at hl
      obtain ⟨q, hq, rfl⟩ := hl
      have hlt := (List.mem_enumFrom hq).2.1
      exact presetStep_filter_refAt_nil schema q.1 P.length X.length q.2 (by omega)
    have hQ : (((List.enumFrom (P.length + 1) Q).map
        (fun q => (presetStep schema q.1 q.2).2)).flatten).filter
          (refAt P.length X.length) = [] := by
      rw [filter_flatten_eq, List.flatten_eq_nil_iff]
      intro l hl
      rw [List.map_map, List.mem_map] at hl
      obtain ⟨q, hq, rfl⟩ := hl
      have hge := (List.mem_enumFrom hq).1
      exact presetStep_filter_refAt_nil schema q.1 P.length X.length q.2 (by omega)
    rw [hP, hQ, presetStep_filter_refAt_self schema bs P.length p X Y pb hbs hacc hpb hc]
    rfl

/-- Witness for C8 at the spec's concrete example: a `@theme` block plus a
preset referencing block type `nonexistent` yields no unknown-block-type
warning; the same preset with only a `text` block yields exactly one. -/
theorem preset_block_reference_leniency_witness :
    ((validatePresets { blocks := some [{ type := some ("@theme".data) }], presets := some [{ name := some ("Default".data), blocks := some [{ type := some ("nonexistent".data) }] }] }).2).filter isUnknownRefWarn = [] ∧
    ((validatePresets { blocks := some [{ type := some ("text".data) }], presets := some [{ name := some ("Default".data), blocks := some [{ type := some ("nonexistent".data) }] }] }).2).filter (refAt 0 0) = [unknownBlockRefWarn (some ("nonexistent".data)) 0 0] := by
  constructor
  · exact (preset_block_reference_leniency
      { blocks := some [{ type := some ("@theme".data) }], presets := some [{ name := some ("Default".data), blocks := some [{ type := some ("nonexistent".data) }] }] }
      [{ type := some ("@theme".data) }] [] [] ({} : Preset) [] [] ({} : PresetBlock) rfl).1
      ⟨{ type := some ("@theme".data) }, by decide, by decide⟩
  · exact (preset_block_reference_leniency
      { blocks := some [{ type := some ("text".data) }], presets := some [{ name := some ("Default".data), blocks := some [{ type := some ("nonexistent".data) }] }] }
      [{ type := some ("text".data) }] [] []
      { name := some ("Default".data), blocks := some [{ type := some ("nonexistent".data) }] }
      [] [] { type := some ("nonexistent".data) } rfl).2
      (by decide) rfl rfl (by decide)

/-! ## C2 -/

theorem fixTrailingCommasGo_noTrig (L : List Str) (h : anyTrailingTrigger L = false) :
    ∀ i, fixTrailingCommasGo i L = (L, []) := by
  induction L with
  | nil => intro i; rfl
  | cons l rest ih =>
    intro i
    rw [anyTrailingTrigger, Bool.or_eq_false_iff] at h
    rw [fixTrailingCommasGo, ih h.2 (i + 1)]
    simp [h.1]

theorem fixTrailingCommasGo_one (l : Str) (B : List Str)
    (htrig : trailingCommaTrigger l B = true) (hB : anyTrailingTrigger B = false) :
    ∀ (A : List Str), trigFreePrefix A (l :: B) = true →
    ∀ i, fixTrailingCommasGo i (A ++ l :: B) =
      (A ++ removeTrailingComma l :: B, [mkTrailingIssue (i + A.length) l]) := by
  intro A
  induction A with
  | nil =>
    intro _ i
    rw [List.nil_append, fixTrailingCommasGo, fixTrailingCommasGo_noTrig B hB (i + 1)]
    simp [htrig]
  | cons a A' ih =>
    intro hfree i
    rw [trigFreePrefix, Bool.and_eq_true] at hfree
    have ha : trailingCommaTrigger a (A' ++ l :: B) = false := by
      have h1 := hfree.1
      simpa using h1
    rw [List.cons_append, fixTrailingCommasGo, ih hfree.2 (i + 1)]
    have hidx : i + 1 + A'.length = i + (a :: A').length := by
      rw [List.length_cons]; omega
    rw [hidx]
    simp [ha]

theorem fixTrailingCommas_one (content : Str) (A : List Str) (l : Str) (B : List Str)
    (hsplit : splitOnC '\n' content = A ++ l :: B)
    (hfree : trigFreePrefix A (l :: B) = true)
    (htrig : trailingCommaTrigger l B = true)
    (hB : anyTrailingTrigger B = false) :
    fixTrailingCommas content [] =
      (joinC '\n' (A ++ removeTrailingComma l :: B), [mkTrailingIssue A.length l]) := by
  unfold fixTrailingCommas
  rw [hsplit]
  simp only [fixTrailingCommasGo_one l B htrig hB A hfree 0]
  simp

theorem fixMissingCommasGo_noTrig (L : List Str) (h : anyMissingTrigger L = false) :
    ∀ i, fixMissingCommasGo i L = (L, []) := by
  induction L with
  | nil => intro i; rfl
  | cons l1 rest ih =>
    intro i
    cases rest with
    | nil => rfl
    | cons l2 rest' =>
      rw [anyMissingTrigger, Bool.or_eq_false_iff] at h
      rw [fixMissingCommasGo, ih h.2 (i + 1)]
      simp [h.1]

theorem fixMissingCommas_noop (content : Str) (issues : List JsonIssue)
    (h : anyMissingTrigger (splitOnC '\n' content) = false) :
    fixMissingCommas content issues = (content, issues) := by
  unfold fixMissingCommas
  simp only [fixMissingCommasGo_noTrig _ h 0]
  simp

theorem stringValueMatchesGo_shape (fuel : Nat) :
    ∀ (s : Str), ∀ m ∈ stringValueMatchesGo fuel s,
      ∃ w body, (∀ c ∈ w, ¬c = '"') ∧ (∀ c ∈ body, ¬c = '"') ∧
        m = ':' :: w ++ '"' :: body ++ ['"'] := by
  induction fuel with
  | zero =>
    intro s m hm
    exact absurd hm (List.not_mem_nil m)
  | succ fuel ih =>
    intro s m hm
    cases s with
    | nil => exact absurd hm (List.not_mem_nil m)
    | cons c r =>
      rw [stringValueMatchesGo] at hm
      split at hm
      · split at hm
        · split at hm
          · rcases List.mem_cons.mp hm with rfl | hm'
            · refine ⟨_, _, ?_, ?_, rfl⟩
              · intro x hx hcon
                subst hcon
                have hws := List.mem_takeWhile_imp hx
                exact absurd hws (by decide)
              · intro x hx
                have h2 := List.mem_takeWhile_imp hx
                simp only [decide_eq_true_eq] at h2
                exact h2
            · exact ih _ m hm'
          · exact ih r m hm
        · exact ih r m hm
      · exact ih r m hm

theorem stringContentOf_shape (w body : Str)
    (hw : ∀ c ∈ w, ¬c = '"') (hb : ∀ c ∈ body, ¬c = '"') :
    stringContentOf (':' :: w ++ '"' :: body ++ ['"']) = body := by
  unfold stringContentOf
  have hm : ':' :: w ++ '"' :: body ++ ['"'] = (':' :: w) ++ ('"' :: (body ++ ['"'])) := by
    simp
  rw [hm]
  rw [dropWhile_append_of_all _ (':' :: w) _ ?hall]
  case hall =>
    intro c hc
    rcases List.mem_cons.mp hc with rfl | hcw
    · decide
    · exact decide_eq_true (hw c hcw)
  rw [List.dropWhile_cons, if_neg (by decide)]
  simp only [List.drop_succ_cons, List.drop_zero, List.reverse_append, List.reverse_cons,
    List.reverse_nil, List.nil_append, List.singleton_append]
  rw [List.dropWhile_cons, if_neg (by decide)]
  simp

theorem unescapedIssueFilter_none (i : Nat) (line m : Str)
    (hm : m ∈ stringValueMatches line) : unescapedIssueFilter i line m = none := by
  obtain ⟨w, body, hw, hb, rfl⟩ := stringValueMatchesGo_shape line.length line m hm
  have hcon : body.contains '"' = false := by
    have hnm : '"' ∉ body := fun hmem => hb '"' hmem rfl
    simpa using hnm
  unfold unescapedIssueFilter
  simp only [stringContentOf_shape w body hw hb, hcon, Bool.false_and]
  rfl

theorem fixUnescapedQuotes_noop (content : Str) (issues : List JsonIssue) :
    fixUnescapedQuotes content issues = (content, issues) := by
  unfold fixUnescapedQuotes
  have hnil : (((splitOnC '\n' content).enum.map (fun p =>
      if !(p.2.contains ':') || !(p.2.contains '"') then []
      else (stringValueMatches p.2).filterMap (unescapedIssueFilter p.1 p.2))).flatten :
        List JsonIssue) = [] := by
    rw [List.flatten_eq_nil_iff]
    intro l hl
    rw [List.mem_map] at hl
    obtain ⟨q, hq, rfl⟩ := hl
    split
    · rfl
    · rw [List.filterMap_eq_nil_iff]
      intro m hm
      exact unescapedIssueFilter_none q.1 q.2 m hm
  simp only [hnil, List.append_nil]

/-- C2 counterexample (same-line case): on `\x7b"a": [1,]` followed by `\x7d`,
the tolerant parser records a trailing-comma issue with `fixed := true`, yet
the repair is a no-op (`/,(\s*)$/` only matches a comma at end of line), so
the strict parse of the manually-repaired text succeeds while the tolerant
parser still returns a null schema. -/
theorem same_line_trailing_comma_not_repaired :
    ((fun c => if c = ("\x7b\"a\": [1]\n\x7d".data)
        then Except.ok ({} : ShopifySchema)
        else Except.error ("Unexpected token".data)) ("\x7b\"a\": [1]\n\x7d".data)
      = Except.ok ({} : ShopifySchema)) ∧
    ((parseJsonWithRecovery (fun c => if c = ("\x7b\"a\": [1]\n\x7d".data)
        then Except.ok ({} : ShopifySchema)
        else Except.error ("Unexpected token".data)) ("\x7b\"a\": [1,]\n\x7d".data)).issues.map
      (fun q => (q.type, q.fixed)) = [(IssueType.trailingComma, true), (IssueType.other, false)]) ∧
    (parseJsonWithRecovery (fun c => if c = ("\x7b\"a\": [1]\n\x7d".data)
        then Except.ok ({} : ShopifySchema)
        else Except.error ("Unexpected token".data)) ("\x7b\"a\": [1,]\n\x7d".data)).schema
      = none := by
  exact ⟨rfl, by decide, by decide⟩

/-- C2 (amended): when the single trailing-comma trigger is of the
pure-comma form (the line ends, after trim, in `,` and a later non-blank
line closes the bracket), the repair removes that comma, the missing-comma
pass does not fire on the repaired text, and the tolerant parser returns
exactly the strictly-parsed repaired text (with defaults applied), one
trailing-comma issue, and the original error. -/
theorem trailing_comma_roundtrip (parse : Str → Except Str ShopifySchema)
    (content : Str) (A : List Str) (l : Str) (B : List Str)
    (e : Str) (s : ShopifySchema)
    (hsplit : splitOnC '\n' content = A ++ l :: B)
    (hfree : trigFreePrefix A (l :: B) = true)
    (htrig : trailingCommaTrigger l B = true)
    (hB : anyTrailingTrigger B = false)
    (hmiss : anyMissingTrigger (splitOnC '\n'
      (joinC '\n' (A ++ removeTrailingComma l :: B))) = false)
    (hparse1 : parse content = .error e)
    (hparse2 : parse (joinC '\n' (A ++ removeTrailingComma l :: B)) = .ok s) :
    parseJsonWithRecovery parse content =
      { schema := some (validateAndCleanSchema s)
        issues := [mkTrailingIssue A.length l]
        originalError := some e } := by
  unfold parseJsonWithRecovery
  rw [hparse1]
  simp only [fixTrailingCommas_one content A l B hsplit hfree htrig hB]
  simp only [fixMissingCommas_noop _ _ hmiss]
  simp only [fixUnescapedQuotes_noop]
  simp only [hparse2]

/-- Witness for C2 (amended) at the concrete document
`\x7b"a": [1,` / `]` / `\x7d`. -/
theorem trailing_comma_roundtrip_witness :
    parseJsonWithRecovery (fun c => if c = ("\x7b\"a\": [1\n]\n\x7d".data)
        then Except.ok ({} : ShopifySchema)
        else Except.error ("Unexpected token".data)) ("\x7b\"a\": [1,\n]\n\x7d".data) =
      { schema := some (validateAndCleanSchema {})
        issues := [mkTrailingIssue 0 ("\x7b\"a\": [1,".data)]
        originalError := some ("Unexpected token".data) } := by
  have h := trailing_comma_roundtrip (fun c => if c = ("\x7b\"a\": [1\n]\n\x7d".data)
      then Except.ok ({} : ShopifySchema)
      else Except.error ("Unexpected token".data)) ("\x7b\"a\": [1,\n]\n\x7d".data)
    [] ("\x7b\"a\": [1,".data) (["]".data, "\x7d".data])
    ("Unexpected token".data) ({} : ShopifySchema)
    (by decide) (by decide) (by decide) (by decide) (by decide) rfl rfl
  exact h

end SchemaHelper
